import Mathlib

/-!
Shallow embedding of `miasm2/os_dep/win_api_x86_32_seh.py`: the simulated
Windows x86-32 process environment (TEB/PEB/loader lists) and the SEH
dispatch protocol.  Emulated memory is modelled word-wise: a 32-bit store
at byte address `a` is a map update at key `a`, and a 32-bit load masks to
32 bits (`vm.get_mem(a, 4)` always yields a value below 2^32).  All
absolute and relative addresses used by the code are reproduced verbatim.
-/

set_option maxRecDepth 100000

namespace Seh

/-! ## Layout constants (module-level constants of the source) -/

def FS_0_AD : Nat := 0x7ff70000
def PEB_AD : Nat := 0x7ffdf000
def LDR_AD : Nat := 0x340000
def DEFAULT_SEH : Nat := 0x7ffff000
def MAX_MODULES : Nat := 0x40
def tib_address : Nat := FS_0_AD
def peb_address : Nat := PEB_AD
def peb_ldr_data_offset : Nat := 0x1ea0
def peb_ldr_data_address : Nat := LDR_AD + peb_ldr_data_offset
def modules_list_offset : Nat := 0x1f00
def process_environment_address : Nat := 0x10000
def process_parameters_address : Nat := 0x200000
def return_from_exception : Nat := 0x6eadbeef
def MAX_SEH : Nat := 5
def EXCEPTION_ACCESS_VIOLATION : Nat := 0xc0000005

/-! ## Emulated memory -/

/-- Emulated memory, seen as a map from byte address to the 32-bit word a
4-byte load at that address would return. -/
def Mem : Type := Nat → Nat

/-- `vm.set_mem(a, pck32 v)`: store a 32-bit little-endian word at `a`. -/
def writeU32 (m : Mem) (a v : Nat) : Mem := fun x => if x = a then v else m x

/-- `upck32(vm.get_mem(a, 4))`: a 4-byte load, always below 2^32. -/
def readU32 (m : Mem) (a : Nat) : Nat := m a % 4294967296

/-- Zero-fill of `sz` bytes starting at `a` (`memset("\x00")`, and the
zero-initialised pages created by `add_memory_page`). -/
def memsetZero (m : Mem) (a sz : Nat) : Mem :=
  fun x => if a ≤ x ∧ x < a + sz then 0 else m x

theorem read_write (m : Mem) (a v b : Nat) :
    readU32 (writeU32 m a v) b =
      if b = a then v % 4294967296 else readU32 m b := by
  unfold readU32 writeU32
  by_cases h : b = a <;> simp [h]

theorem read_memset (m : Mem) (a sz b : Nat) :
    readU32 (memsetZero m a sz) b =
      if a ≤ b ∧ b < a + sz then 0 else readU32 m b := by
  unfold readU32 memsetZero
  by_cases h : a ≤ b ∧ b < a + sz <;> simp [h]

theorem readU32_lt (m : Mem) (a : Nat) : readU32 m a < 4294967296 :=
  Nat.mod_lt _ (by decide)

theorem peel_ne (m : Mem) (a v b rest : Nat) (h : readU32 m b = rest)
    (hne : b ≠ a) : readU32 (writeU32 m a v) b = rest := by
  rw [read_write, if_neg hne, h]

theorem peel_eq (m : Mem) (a v b : Nat) (h : b = a) :
    readU32 (writeU32 m a v) b = v % 4294967296 := by
  rw [read_write, if_pos h]

theorem peel_memset_out (m : Mem) (a sz b rest : Nat)
    (h : readU32 m b = rest) (hout : ¬(a ≤ b ∧ b < a + sz)) :
    readU32 (memsetZero m a sz) b = rest := by
  rw [read_memset, if_neg hout, h]

theorem peel_memset_in (m : Mem) (a sz b : Nat) (hin : a ≤ b ∧ b < a + sz) :
    readU32 (memsetZero m a sz) b = 0 := by
  rw [read_memset, if_pos hin]

/-! ## Register file

The covered fields of the emulated x86-32 CPU (`jitter.cpu`): four data
segment selectors, seven general-purpose registers, instruction pointer,
code segment, stack pointer, stack segment.  The jitter's register
accessors yield unsigned 32-bit values. -/

@[ext]
structure RegFile where
  gs : Nat
  fs : Nat
  es : Nat
  ds : Nat
  edi : Nat
  esi : Nat
  ebx : Nat
  edx : Nat
  ecx : Nat
  eax : Nat
  ebp : Nat
  eip : Nat
  cs : Nat
  esp : Nat
  ss : Nat
deriving DecidableEq

/-- Wellformedness of a register file: every field is a 32-bit value, as
delivered by the jitter's unsigned register accessors. -/
abbrev RegFile.wf (r : RegFile) : Prop :=
  r.gs < 4294967296 ∧ r.fs < 4294967296 ∧ r.es < 4294967296 ∧
  r.ds < 4294967296 ∧ r.edi < 4294967296 ∧ r.esi < 4294967296 ∧
  r.ebx < 4294967296 ∧ r.edx < 4294967296 ∧ r.ecx < 4294967296 ∧
  r.eax < 4294967296 ∧ r.ebp < 4294967296 ∧ r.eip < 4294967296 ∧
  r.cs < 4294967296 ∧ r.esp < 4294967296 ∧ r.ss < 4294967296

/-! ## CPU context marshaller

Modelled from the spec: the field offsets of the serialized context
record (`ContextException` in `win_32_structs.py`, which is outside
`src/`) are the published native x86-32 `CONTEXT` layout required by
spec §6: ContextFlags 0x0, six debug registers 0x4..0x18, float save
area 0x1C..0x8B, SegGs 0x8C, SegFs 0x90, SegEs 0x94, SegDs 0x98,
Edi 0x9C, Esi 0xA0, Ebx 0xA4, Edx 0xA8, Ecx 0xAC, Eax 0xB0, Ebp 0xB4,
Eip 0xB8, SegCs 0xBC, EFlags 0xC0, Esp 0xC4, SegSs 0xC8, extended
registers up to the total size 0x2CC.  `return_from_seh` hardcodes the
Esp offset 0xC4, consistently with this layout. -/

/-- `regs2ctxt(jitter, context_address)`: zero the whole record, zero the
debug registers, then write the covered fields in source order. -/
def regs2ctxt (regs : RegFile) (context_address : Nat) (mem : Mem) : Mem :=
  let m0 := memsetZero mem context_address 0x2cc
  let m1 := writeU32 m0 (context_address + 0x4) 0      -- dr0
  let m2 := writeU32 m1 (context_address + 0x8) 0      -- dr1
  let m3 := writeU32 m2 (context_address + 0xC) 0      -- dr2
  let m4 := writeU32 m3 (context_address + 0x10) 0     -- dr3
  let m5 := writeU32 m4 (context_address + 0x14) 0     -- dr4
  let m6 := writeU32 m5 (context_address + 0x18) 0     -- dr5
  let m7 := writeU32 m6 (context_address + 0x8C) regs.gs
  let m8 := writeU32 m7 (context_address + 0x90) regs.fs
  let m9 := writeU32 m8 (context_address + 0x94) regs.es
  let m10 := writeU32 m9 (context_address + 0x98) regs.ds
  let m11 := writeU32 m10 (context_address + 0x9C) regs.edi
  let m12 := writeU32 m11 (context_address + 0xA0) regs.esi
  let m13 := writeU32 m12 (context_address + 0xA4) regs.ebx
  let m14 := writeU32 m13 (context_address + 0xA8) regs.edx
  let m15 := writeU32 m14 (context_address + 0xAC) regs.ecx
  let m16 := writeU32 m15 (context_address + 0xB0) regs.eax
  let m17 := writeU32 m16 (context_address + 0xB4) regs.ebp
  let m18 := writeU32 m17 (context_address + 0xB8) regs.eip
  let m19 := writeU32 m18 (context_address + 0xBC) regs.cs
  let m20 := writeU32 m19 (context_address + 0xC4) regs.esp
  writeU32 m20 (context_address + 0xC8) regs.ss

/-- `ctxt2regs(jitter, ctxt_ptr)`: read every covered field back from the
serialized context record into the register file. -/
def ctxt2regs (mem : Mem) (ctxt_ptr : Nat) : RegFile where
  gs := readU32 mem (ctxt_ptr + 0x8C)
  fs := readU32 mem (ctxt_ptr + 0x90)
  es := readU32 mem (ctxt_ptr + 0x94)
  ds := readU32 mem (ctxt_ptr + 0x98)
  edi := readU32 mem (ctxt_ptr + 0x9C)
  esi := readU32 mem (ctxt_ptr + 0xA0)
  ebx := readU32 mem (ctxt_ptr + 0xA4)
  edx := readU32 mem (ctxt_ptr + 0xA8)
  ecx := readU32 mem (ctxt_ptr + 0xAC)
  eax := readU32 mem (ctxt_ptr + 0xB0)
  ebp := readU32 mem (ctxt_ptr + 0xB4)
  eip := readU32 mem (ctxt_ptr + 0xB8)
  cs := readU32 mem (ctxt_ptr + 0xBC)
  esp := readU32 mem (ctxt_ptr + 0xC4)
  ss := readU32 mem (ctxt_ptr + 0xC8)

/-! Reads of the serialized context record after `regs2ctxt`. -/

theorem regs2ctxt_read_ss (regs : RegFile) (cA : Nat) (mem : Mem) :
    readU32 (regs2ctxt regs cA mem) (cA + 0xC8) = regs.ss % 4294967296 := by
  unfold regs2ctxt
  exact peel_eq _ _ _ _ rfl

theorem regs2ctxt_read_esp (regs : RegFile) (cA : Nat) (mem : Mem) :
    readU32 (regs2ctxt regs cA mem) (cA + 0xC4) = regs.esp % 4294967296 := by
  unfold regs2ctxt
  apply peel_ne
  exact peel_eq _ _ _ _ rfl
  all_goals omega

theorem regs2ctxt_read_cs (regs : RegFile) (cA : Nat) (mem : Mem) :
    readU32 (regs2ctxt regs cA mem) (cA + 0xBC) = regs.cs % 4294967296 := by
  unfold regs2ctxt
  apply peel_ne
  apply peel_ne
  exact peel_eq _ _ _ _ rfl
  all_goals omega

theorem regs2ctxt_read_eip (regs : RegFile) (cA : Nat) (mem : Mem) :
    readU32 (regs2ctxt regs cA mem) (cA + 0xB8) = regs.eip % 4294967296 := by
  unfold regs2ctxt
  apply peel_ne
  apply peel_ne
  apply peel_ne
  exact peel_eq _ _ _ _ rfl
  all_goals omega

theorem regs2ctxt_read_ebp (regs : RegFile) (cA : Nat) (mem : Mem) :
    readU32 (regs2ctxt regs cA mem) (cA + 0xB4) = regs.ebp % 4294967296 := by
  unfold regs2ctxt
  apply peel_ne
  apply peel_ne
  apply peel_ne
  apply peel_ne
  exact peel_eq _ _ _ _ rfl
  all_goals omega

theorem regs2ctxt_read_eax (regs : RegFile) (cA : Nat) (mem : Mem) :
    readU32 (regs2ctxt regs cA mem) (cA + 0xB0) = regs.eax % 4294967296 := by
  unfold regs2ctxt
  apply peel_ne
  apply peel_ne
  apply peel_ne
  apply peel_ne
  apply peel_ne
  exact peel_eq _ _ _ _ rfl
  all_goals omega

theorem regs2ctxt_read_ecx (regs : RegFile) (cA : Nat) (mem : Mem) :
    readU32 (regs2ctxt regs cA mem) (cA + 0xAC) = regs.ecx % 4294967296 := by
  unfold regs2ctxt
  apply peel_ne
  apply peel_ne
  apply peel_ne
  apply peel_ne
  apply peel_ne
  apply peel_ne
  exact peel_eq _ _ _ _ rfl
  all_goals omega

theorem regs2ctxt_read_edx (regs : RegFile) (cA : Nat) (mem : Mem) :
    readU32 (regs2ctxt regs cA mem) (cA + 0xA8) = regs.edx % 4294967296 := by
  unfold regs2ctxt
  apply peel_ne
  apply peel_ne
  apply peel_ne
  apply peel_ne
  apply peel_ne
  apply peel_ne
  apply peel_ne
  exact peel_eq _ _ _ _ rfl
  all_goals omega

theorem regs2ctxt_read_ebx (regs : RegFile) (cA : Nat) (mem : Mem) :
    readU32 (regs2ctxt regs cA mem) (cA + 0xA4) = regs.ebx % 4294967296 := by
  unfold regs2ctxt
  apply peel_ne
  apply peel_ne
  apply peel_ne
  apply peel_ne
  apply peel_ne
  apply peel_ne
  apply peel_ne
  apply peel_ne
  exact peel_eq _ _ _ _ rfl
  all_goals omega

theorem regs2ctxt_read_esi (regs : RegFile) (cA : Nat) (mem : Mem) :
    readU32 (regs2ctxt regs cA mem) (cA + 0xA0) = regs.esi % 4294967296 := by
  unfold regs2ctxt
  apply peel_ne
  apply peel_ne
  apply peel_ne
  apply peel_ne
  apply peel_ne
  apply peel_ne
  apply peel_ne
  apply peel_ne
  apply peel_ne
  exact peel_eq _ _ _ _ rfl
  all_goals omega

theorem regs2ctxt_read_edi (regs : RegFile) (cA : Nat) (mem : Mem) :
    readU32 (regs2ctxt regs cA mem) (cA + 0x9C) = regs.edi % 4294967296 := by
  unfold regs2ctxt
  apply peel_ne
  apply peel_ne
  apply peel_ne
  apply peel_ne
  apply peel_ne
  apply peel_ne
  apply peel_ne
  apply peel_ne
  apply peel_ne
  apply peel_ne
  exact peel_eq _ _ _ _ rfl
  all_goals omega

theorem regs2ctxt_read_ds (regs : RegFile) (cA : Nat) (mem : Mem) :
    readU32 (regs2ctxt regs cA mem) (cA + 0x98) = regs.ds % 4294967296 := by
  unfold regs2ctxt
  apply peel_ne
  apply peel_ne
  apply peel_ne
  apply peel_ne
  apply peel_ne
  apply peel_ne
  apply peel_ne
  apply peel_ne
  apply peel_ne
  apply peel_ne
  apply peel_ne
  exact peel_eq _ _ _ _ rfl
  all_goals omega

theorem regs2ctxt_read_es (regs : RegFile) (cA : Nat) (mem : Mem) :
    readU32 (regs2ctxt regs cA mem) (cA + 0x94) = regs.es % 4294967296 := by
  unfold regs2ctxt
  apply peel_ne
  apply peel_ne
  apply peel_ne
  apply peel_ne
  apply peel_ne
  apply peel_ne
  apply peel_ne
  apply peel_ne
  apply peel_ne
  apply peel_ne
  apply peel_ne
  apply peel_ne
  exact peel_eq _ _ _ _ rfl
  all_goals omega

theorem regs2ctxt_read_fs (regs : RegFile) (cA : Nat) (mem : Mem) :
    readU32 (regs2ctxt regs cA mem) (cA + 0x90) = regs.fs % 4294967296 := by
  unfold regs2ctxt
  apply peel_ne
  apply peel_ne
  apply peel_ne
  apply peel_ne
  apply peel_ne
  apply peel_ne
  apply peel_ne
  apply peel_ne
  apply peel_ne
  apply peel_ne
  apply peel_ne
  apply peel_ne
  apply peel_ne
  exact peel_eq _ _ _ _ rfl
  all_goals omega

theorem regs2ctxt_read_gs (regs : RegFile) (cA : Nat) (mem : Mem) :
    readU32 (regs2ctxt regs cA mem) (cA + 0x8C) = regs.gs % 4294967296 := by
  unfold regs2ctxt
  apply peel_ne
  apply peel_ne
  apply peel_ne
  apply peel_ne
  apply peel_ne
  apply peel_ne
  apply peel_ne
  apply peel_ne
  apply peel_ne
  apply peel_ne
  apply peel_ne
  apply peel_ne
  apply peel_ne
  apply peel_ne
  exact peel_eq _ _ _ _ rfl
  all_goals omega

theorem regs2ctxt_read_dr5 (regs : RegFile) (cA : Nat) (mem : Mem) :
    readU32 (regs2ctxt regs cA mem) (cA + 0x18) = 0 := by
  unfold regs2ctxt
  apply peel_ne
  apply peel_ne
  apply peel_ne
  apply peel_ne
  apply peel_ne
  apply peel_ne
  apply peel_ne
  apply peel_ne
  apply peel_ne
  apply peel_ne
  apply peel_ne
  apply peel_ne
  apply peel_ne
  apply peel_ne
  apply peel_ne
  exact peel_eq _ _ _ _ rfl
  all_goals omega

theorem regs2ctxt_read_dr4 (regs : RegFile) (cA : Nat) (mem : Mem) :
    readU32 (regs2ctxt regs cA mem) (cA + 0x14) = 0 := by
  unfold regs2ctxt
  apply peel_ne
  apply peel_ne
  apply peel_ne
  apply peel_ne
  apply peel_ne
  apply peel_ne
  apply peel_ne
  apply peel_ne
  apply peel_ne
  apply peel_ne
  apply peel_ne
  apply peel_ne
  apply peel_ne
  apply peel_ne
  apply peel_ne
  apply peel_ne
  exact peel_eq _ _ _ _ rfl
  all_goals omega

theorem regs2ctxt_read_dr3 (regs : RegFile) (cA : Nat) (mem : Mem) :
    readU32 (regs2ctxt regs cA mem) (cA + 0x10) = 0 := by
  unfold regs2ctxt
  apply peel_ne
  apply peel_ne
  apply peel_ne
  apply peel_ne
  apply peel_ne
  apply peel_ne
  apply peel_ne
  apply peel_ne
  apply peel_ne
  apply peel_ne
  apply peel_ne
  apply peel_ne
  apply peel_ne
  apply peel_ne
  apply peel_ne
  apply peel_ne
  apply peel_ne
  exact peel_eq _ _ _ _ rfl
  all_goals omega

theorem regs2ctxt_read_dr2 (regs : RegFile) (cA : Nat) (mem : Mem) :
    readU32 (regs2ctxt regs cA mem) (cA + 0xC) = 0 := by
  unfold regs2ctxt
  apply peel_ne
  apply peel_ne
  apply peel_ne
  apply peel_ne
  apply peel_ne
  apply peel_ne
  apply peel_ne
  apply peel_ne
  apply peel_ne
  apply peel_ne
  apply peel_ne
  apply peel_ne
  apply peel_ne
  apply peel_ne
  apply peel_ne
  apply peel_ne
  apply peel_ne
  apply peel_ne
  exact peel_eq _ _ _ _ rfl
  all_goals omega

theorem regs2ctxt_read_dr1 (regs : RegFile) (cA : Nat) (mem : Mem) :
    readU32 (regs2ctxt regs cA mem) (cA + 0x8) = 0 := by
  unfold regs2ctxt
  apply peel_ne
  apply peel_ne
  apply peel_ne
  apply peel_ne
  apply peel_ne
  apply peel_ne
  apply peel_ne
  apply peel_ne
  apply peel_ne
  apply peel_ne
  apply peel_ne
  apply peel_ne
  apply peel_ne
  apply peel_ne
  apply peel_ne
  apply peel_ne
  apply peel_ne
  apply peel_ne
  apply peel_ne
  exact peel_eq _ _ _ _ rfl
  all_goals omega

theorem regs2ctxt_read_dr0 (regs : RegFile) (cA : Nat) (mem : Mem) :
    readU32 (regs2ctxt regs cA mem) (cA + 0x4) = 0 := by
  unfold regs2ctxt
  apply peel_ne
  apply peel_ne
  apply peel_ne
  apply peel_ne
  apply peel_ne
  apply peel_ne
  apply peel_ne
  apply peel_ne
  apply peel_ne
  apply peel_ne
  apply peel_ne
  apply peel_ne
  apply peel_ne
  apply peel_ne
  apply peel_ne
  apply peel_ne
  apply peel_ne
  apply peel_ne
  apply peel_ne
  apply peel_ne
  exact peel_eq _ _ _ _ rfl
  all_goals omega

theorem regs2ctxt_read_eflags (regs : RegFile) (cA : Nat) (mem : Mem) :
    readU32 (regs2ctxt regs cA mem) (cA + 0xC0) = 0 := by
  unfold regs2ctxt
  apply peel_ne
  apply peel_ne
  apply peel_ne
  apply peel_ne
  apply peel_ne
  apply peel_ne
  apply peel_ne
  apply peel_ne
  apply peel_ne
  apply peel_ne
  apply peel_ne
  apply peel_ne
  apply peel_ne
  apply peel_ne
  apply peel_ne
  apply peel_ne
  apply peel_ne
  apply peel_ne
  apply peel_ne
  apply peel_ne
  apply peel_ne
  exact peel_memset_in _ _ _ _ (by omega)
  all_goals omega

/-- `regs2ctxt` touches no byte outside the context record. -/
theorem regs2ctxt_read_out (regs : RegFile) (cA : Nat) (mem : Mem) (b : Nat)
    (h : b < cA ∨ cA + 0x2cc ≤ b) :
    readU32 (regs2ctxt regs cA mem) b = readU32 mem b := by
  unfold regs2ctxt
  apply peel_ne
  apply peel_ne
  apply peel_ne
  apply peel_ne
  apply peel_ne
  apply peel_ne
  apply peel_ne
  apply peel_ne
  apply peel_ne
  apply peel_ne
  apply peel_ne
  apply peel_ne
  apply peel_ne
  apply peel_ne
  apply peel_ne
  apply peel_ne
  apply peel_ne
  apply peel_ne
  apply peel_ne
  apply peel_ne
  apply peel_ne
  refine peel_memset_out _ _ _ _ _ rfl ?_
  all_goals omega

/-- The `save()`/`restore()` round trip of the context marshaller:
helper shared by the claims about `regs2ctxt`/`ctxt2regs`. -/
theorem ctxt_roundtrip (regs : RegFile) (cA : Nat) (mem : Mem)
    (hwf : regs.wf) :
    ctxt2regs (regs2ctxt regs cA mem) cA = regs := by
  obtain ⟨h1, h2, h3, h4, h5, h6, h7, h8, h9, h10, h11, h12, h13, h14, h15⟩ := hwf
  have hgs : (ctxt2regs (regs2ctxt regs cA mem) cA).gs = regs.gs := by
    show readU32 (regs2ctxt regs cA mem) (cA + 0x8C) = regs.gs
    rw [regs2ctxt_read_gs]; omega
  have hfs : (ctxt2regs (regs2ctxt regs cA mem) cA).fs = regs.fs := by
    show readU32 (regs2ctxt regs cA mem) (cA + 0x90) = regs.fs
    rw [regs2ctxt_read_fs]; omega
  have hes : (ctxt2regs (regs2ctxt regs cA mem) cA).es = regs.es := by
    show readU32 (regs2ctxt regs cA mem) (cA + 0x94) = regs.es
    rw [regs2ctxt_read_es]; omega
  have hds : (ctxt2regs (regs2ctxt regs cA mem) cA).ds = regs.ds := by
    show readU32 (regs2ctxt regs cA mem) (cA + 0x98) = regs.ds
    rw [regs2ctxt_read_ds]; omega
  have hedi : (ctxt2regs (regs2ctxt regs cA mem) cA).edi = regs.edi := by
    show readU32 (regs2ctxt regs cA mem) (cA + 0x9C) = regs.edi
    rw [regs2ctxt_read_edi]; omega
  have hesi : (ctxt2regs (regs2ctxt regs cA mem) cA).esi = regs.esi := by
    show readU32 (regs2ctxt regs cA mem) (cA + 0xA0) = regs.esi
    rw [regs2ctxt_read_esi]; omega
  have hebx : (ctxt2regs (regs2ctxt regs cA mem) cA).ebx = regs.ebx := by
    show readU32 (regs2ctxt regs cA mem) (cA + 0xA4) = regs.ebx
    rw [regs2ctxt_read_ebx]; omega
  have hedx : (ctxt2regs (regs2ctxt regs cA mem) cA).edx = regs.edx := by
    show readU32 (regs2ctxt regs cA mem) (cA + 0xA8) = regs.edx
    rw [regs2ctxt_read_edx]; omega
  have hecx : (ctxt2regs (regs2ctxt regs cA mem) cA).ecx = regs.ecx := by
    show readU32 (regs2ctxt regs cA mem) (cA + 0xAC) = regs.ecx
    rw [regs2ctxt_read_ecx]; omega
  have heax : (ctxt2regs (regs2ctxt regs cA mem) cA).eax = regs.eax := by
    show readU32 (regs2ctxt regs cA mem) (cA + 0xB0) = regs.eax
    rw [regs2ctxt_read_eax]; omega
  have hebp : (ctxt2regs (regs2ctxt regs cA mem) cA).ebp = regs.ebp := by
    show readU32 (regs2ctxt regs cA mem) (cA + 0xB4) = regs.ebp
    rw [regs2ctxt_read_ebp]; omega
  have heip : (ctxt2regs (regs2ctxt regs cA mem) cA).eip = regs.eip := by
    show readU32 (regs2ctxt regs cA mem) (cA + 0xB8) = regs.eip
    rw [regs2ctxt_read_eip]; omega
  have hcs : (ctxt2regs (regs2ctxt regs cA mem) cA).cs = regs.cs := by
    show readU32 (regs2ctxt regs cA mem) (cA + 0xBC) = regs.cs
    rw [regs2ctxt_read_cs]; omega
  have hesp : (ctxt2regs (regs2ctxt regs cA mem) cA).esp = regs.esp := by
    show readU32 (regs2ctxt regs cA mem) (cA + 0xC4) = regs.esp
    rw [regs2ctxt_read_esp]; omega
  have hss : (ctxt2regs (regs2ctxt regs cA mem) cA).ss = regs.ss := by
    show readU32 (regs2ctxt regs cA mem) (cA + 0xC8) = regs.ss
    rw [regs2ctxt_read_ss]; omega
  exact RegFile.ext hgs hfs hes hds hedi hesi hebx hedx hecx heax hebp heip
    hcs hesp hss

/-- C3: `save()` then `restore()` reproduces every covered field; after
`save()` the six debug-register fields and the flags field are zero. -/
theorem claim_c3_ctxt_marshaller_roundtrip (regs : RegFile) (cA : Nat)
    (mem : Mem) (hwf : regs.wf) :
    ctxt2regs (regs2ctxt regs cA mem) cA = regs ∧
    readU32 (regs2ctxt regs cA mem) (cA + 0x4) = 0 ∧
    readU32 (regs2ctxt regs cA mem) (cA + 0x8) = 0 ∧
    readU32 (regs2ctxt regs cA mem) (cA + 0xC) = 0 ∧
    readU32 (regs2ctxt regs cA mem) (cA + 0x10) = 0 ∧
    readU32 (regs2ctxt regs cA mem) (cA + 0x14) = 0 ∧
    readU32 (regs2ctxt regs cA mem) (cA + 0x18) = 0 ∧
    readU32 (regs2ctxt regs cA mem) (cA + 0xC0) = 0 := by
  exact ⟨ctxt_roundtrip regs cA mem hwf, regs2ctxt_read_dr0 regs cA mem,
    regs2ctxt_read_dr1 regs cA mem, regs2ctxt_read_dr2 regs cA mem,
    regs2ctxt_read_dr3 regs cA mem, regs2ctxt_read_dr4 regs cA mem,
    regs2ctxt_read_dr5 regs cA mem, regs2ctxt_read_eflags regs cA mem⟩

/-- Witness for C3 at a concrete register file and memory. -/
theorem claim_c3_witness :
    (RegFile.wf ⟨1, 2, 3, 4, 5, 6, 7, 8, 9, 10, 11, 12, 13, 14, 15⟩) ∧
    (ctxt2regs (regs2ctxt ⟨1, 2, 3, 4, 5, 6, 7, 8, 9, 10, 11, 12, 13, 14, 15⟩
          0x1000 (fun _ => 0)) 0x1000 =
        ⟨1, 2, 3, 4, 5, 6, 7, 8, 9, 10, 11, 12, 13, 14, 15⟩ ∧
      readU32 (regs2ctxt ⟨1, 2, 3, 4, 5, 6, 7, 8, 9, 10, 11, 12, 13, 14, 15⟩
          0x1000 (fun _ => 0)) (0x1000 + 0x4) = 0 ∧
      readU32 (regs2ctxt ⟨1, 2, 3, 4, 5, 6, 7, 8, 9, 10, 11, 12, 13, 14, 15⟩
          0x1000 (fun _ => 0)) (0x1000 + 0x8) = 0 ∧
      readU32 (regs2ctxt ⟨1, 2, 3, 4, 5, 6, 7, 8, 9, 10, 11, 12, 13, 14, 15⟩
          0x1000 (fun _ => 0)) (0x1000 + 0xC) = 0 ∧
      readU32 (regs2ctxt ⟨1, 2, 3, 4, 5, 6, 7, 8, 9, 10, 11, 12, 13, 14, 15⟩
          0x1000 (fun _ => 0)) (0x1000 + 0x10) = 0 ∧
      readU32 (regs2ctxt ⟨1, 2, 3, 4, 5, 6, 7, 8, 9, 10, 11, 12, 13, 14, 15⟩
          0x1000 (fun _ => 0)) (0x1000 + 0x14) = 0 ∧
      readU32 (regs2ctxt ⟨1, 2, 3, 4, 5, 6, 7, 8, 9, 10, 11, 12, 13, 14, 15⟩
          0x1000 (fun _ => 0)) (0x1000 + 0x18) = 0 ∧
      readU32 (regs2ctxt ⟨1, 2, 3, 4, 5, 6, 7, 8, 9, 10, 11, 12, 13, 14, 15⟩
          0x1000 (fun _ => 0)) (0x1000 + 0xC0) = 0) :=
  ⟨by decide,
   claim_c3_ctxt_marshaller_roundtrip ⟨1, 2, 3, 4, 5, 6, 7, 8, 9, 10, 11, 12, 13, 14, 15⟩
     0x1000 (fun _ => 0) (by decide)⟩


/-! ## SEH dispatcher -/

/-- Extra peel lemma: a read that hits a write, with the stored value
reduced to an arbitrary equal form. -/
theorem peel_hit (m : Mem) (a v b rest : Nat) (h : b = a)
    (hv : v % 4294967296 = rest) : readU32 (writeU32 m a v) b = rest := by
  rw [read_write, if_pos h, hv]

/-- `jitter.push_uint32_t(v)`: decrement ESP by 4 and store the word
there.  Only ESP and memory are touched, so the state threaded through
is the pair (ESP value, memory). -/
def push_uint32_t (esp : Nat) (mem : Mem) (v : Nat) : Nat × Mem :=
  (esp - 4, writeU32 mem (esp - 4) v)

/-- `fake_seh_handler(jitter, except_code)`: reserve a frame of 0x3c8
bytes below ESP, save the CONTEXT at frame+0xfc, read the current SEH
head and its (previous, handler) fields, write the EXCEPTION_RECORD at
frame+0xe8, push context address, SEH head, record address and the
return trampoline, install the synthetic SEH frame at frame+0x14 and
make it the new head.  Returns the post-dispatch register file, the
post-dispatch memory, and the handler address `eh` the caller jumps to.
(`dump_seh` is read-only logging and `set_exception(0)` clears fault
state outside the modelled register file and memory; the diagnostic
`seh_count` counter is likewise omitted.) -/
def fake_seh_handler (regs : RegFile) (mem : Mem) (except_code : Nat) :
    RegFile × Mem × Nat :=
  let new_ESP := regs.esp - 0x3c8
  let exception_base_address := new_ESP
  let exception_record_address := exception_base_address + 0xe8
  let context_address := exception_base_address + 0xfc
  let fake_seh_address := exception_base_address + 0x14
  -- Save a CONTEXT
  let mem1 := regs2ctxt regs context_address mem
  -- Get current seh (fs:[0]) and retrieve its fields
  let seh_ptr := readU32 mem1 tib_address
  let old_seh := readU32 mem1 seh_ptr
  let eh := readU32 mem1 (seh_ptr + 4)
  let safe_place := readU32 mem1 (seh_ptr + 8)
  -- jitter.cpu.ESP = new_ESP
  -- Write exception_record
  let mem2 := writeU32 mem1 exception_record_address except_code
  let mem3 := writeU32 mem2 (exception_record_address + 4) 0
  let mem4 := writeU32 mem3 (exception_record_address + 8) 0
  let mem5 := writeU32 mem4 (exception_record_address + 12) regs.eip
  let mem6 := writeU32 mem5 (exception_record_address + 16) 0
  -- Prepare the stack
  let s1 := push_uint32_t new_ESP mem6 context_address
  let s2 := push_uint32_t s1.1 s1.2 seh_ptr
  let s3 := push_uint32_t s2.1 s2.2 exception_record_address
  let s4 := push_uint32_t s3.1 s3.2 return_from_exception
  -- Set fake new current seh for exception
  let mem7 := writeU32 s4.2 fake_seh_address seh_ptr
  let mem8 := writeU32 mem7 (fake_seh_address + 4) 0xaaaaaaaa
  let mem9 := writeU32 mem8 (fake_seh_address + 8) 0xaaaaaabb
  let mem10 := writeU32 mem9 (fake_seh_address + 12) 0xaaaaaacc
  let mem11 := writeU32 mem10 tib_address fake_seh_address
  -- EBX cleared before jumping at eh
  let regs2 := { regs with esp := s4.1, ebx := 0 }
  (regs2, mem11, eh)

/-- Result of `return_from_seh`: either resumed execution (with the new
register file, memory and program counter), one of the two explicit
`NotImplementedError` raises, or the undocumented silent fall-through of
the Python function when no branch matches. -/
inductive SehReturnResult where
  | continueExec (regs : RegFile) (mem : Mem) (pc : Nat)
  | nextHandlerNotImplemented (regs : RegFile) (mem : Mem)
  | gameOverNotImplemented (regs : RegFile) (mem : Mem)
  | fallThrough (regs : RegFile) (mem : Mem)

def SehReturnResult.outRegs : SehReturnResult → RegFile
  | .continueExec r _ _ => r
  | .nextHandlerNotImplemented r _ => r
  | .gameOverNotImplemented r _ => r
  | .fallThrough r _ => r

def SehReturnResult.outMem : SehReturnResult → Mem
  | .continueExec _ m _ => m
  | .nextHandlerNotImplemented _ m => m
  | .gameOverNotImplemented _ m => m
  | .fallThrough _ m => m

/-- Resumed program counter; 0 when execution does not resume. -/
def SehReturnResult.outPc : SehReturnResult → Nat
  | .continueExec _ _ pc => pc
  | _ => 0

def SehReturnResult.isContinueExec : SehReturnResult → Bool
  | .continueExec _ _ _ => true
  | _ => false

def SehReturnResult.isNextHandlerRaise : SehReturnResult → Bool
  | .nextHandlerNotImplemented _ _ => true
  | _ => false

def SehReturnResult.isGameOverRaise : SehReturnResult → Bool
  | .gameOverNotImplemented _ _ => true
  | _ => false

def SehReturnResult.isFallThrough : SehReturnResult → Bool
  | .fallThrough _ _ => true
  | _ => false

/-- `return_from_seh(jitter)`: read the saved context address from
ESP+8, reset ESP from the context record's Esp field (offset 0xc4), pop
the synthetic SEH frame (restore the head slot from its previous link),
then branch on EAX.  The comparison `jitter.cpu.EAX == -1` of the source
is kept verbatim: the jitter's EAX accessor yields an unsigned 32-bit
value (a `Nat` here), compared against the literal -1, so the branch can
never be taken; a handler returning the decline-and-unwind disposition
0xffffffff falls through the whole if/elif chain and the function
returns silently. -/
def return_from_seh (regs0 : RegFile) (mem : Mem) : SehReturnResult :=
  -- Get current context
  let context_address := readU32 mem (regs0.esp + 0x8)
  let regs := { regs0 with esp := readU32 mem (context_address + 0xc4) }
  -- Rebuild SEH
  let old_seh := readU32 mem tib_address
  let new_seh := readU32 mem old_seh
  let mem1 := writeU32 mem tib_address new_seh
  if regs.eax = 0x0 then
    -- ExceptionContinueExecution
    let regs1 := ctxt2regs mem1 context_address
    SehReturnResult.continueExec regs1 mem1 regs1.eip
  else if (regs.eax : Int) = -1 then
    SehReturnResult.nextHandlerNotImplemented regs mem1
  else if regs.eax = 1 then
    -- ExceptionContinueSearch
    SehReturnResult.gameOverNotImplemented regs mem1
  else
    SehReturnResult.fallThrough regs mem1

/-- A guest handler that performs only a plain `ret` (popping the pushed
trampoline return address raises ESP by 4) and reports the disposition
continue-execution by returning EAX = 0, modifying nothing else. -/
def handlerPlainReturn (r : RegFile) : RegFile :=
  { r with esp := r.esp + 4, eax := 0 }

/-! Characterizations of the dispatch state.  Throughout, the frame base
is `regs.esp - 0x3c8` and the hypotheses ask that the stack leave room
for the frame (`0x3d8 ≤ regs.esp`) and sit below the thread info block
(`regs.esp ≤ tib_address`), as any realistic pre-fault state does. -/

/-- Registers after dispatch: ESP lowered by the frame plus the four
pushes, EBX cleared, everything else untouched. -/
theorem fake_seh_handler_regs (regs : RegFile) (mem : Mem) (code : Nat) :
    (fake_seh_handler regs mem code).1 =
      { regs with esp := regs.esp - 0x3c8 - 4 - 4 - 4 - 4, ebx := 0 } := rfl

/-- The post-dispatch memory, written out as the explicit chain of
stores over the saved context (frame base abbreviated as
`regs.esp - 0x3c8`). -/
theorem fake_seh_handler_mem (regs : RegFile) (mem : Mem) (code : Nat) :
    (fake_seh_handler regs mem code).2.1 =
      writeU32 (writeU32 (writeU32 (writeU32 (writeU32 (writeU32 (writeU32
        (writeU32 (writeU32 (writeU32 (writeU32 (writeU32 (writeU32 (writeU32
          (regs2ctxt regs (regs.esp - 0x3c8 + 0xfc) mem)
          (regs.esp - 0x3c8 + 0xe8) code)
          (regs.esp - 0x3c8 + 0xe8 + 4) 0)
          (regs.esp - 0x3c8 + 0xe8 + 8) 0)
          (regs.esp - 0x3c8 + 0xe8 + 12) regs.eip)
          (regs.esp - 0x3c8 + 0xe8 + 16) 0)
          (regs.esp - 0x3c8 - 4) (regs.esp - 0x3c8 + 0xfc))
          (regs.esp - 0x3c8 - 4 - 4)
          (readU32 (regs2ctxt regs (regs.esp - 0x3c8 + 0xfc) mem) tib_address))
          (regs.esp - 0x3c8 - 4 - 4 - 4) (regs.esp - 0x3c8 + 0xe8))
          (regs.esp - 0x3c8 - 4 - 4 - 4 - 4) return_from_exception)
          (regs.esp - 0x3c8 + 0x14)
          (readU32 (regs2ctxt regs (regs.esp - 0x3c8 + 0xfc) mem) tib_address))
          (regs.esp - 0x3c8 + 0x14 + 4) 0xaaaaaaaa)
          (regs.esp - 0x3c8 + 0x14 + 8) 0xaaaaaabb)
          (regs.esp - 0x3c8 + 0x14 + 12) 0xaaaaaacc)
          tib_address (regs.esp - 0x3c8 + 0x14) := rfl

/-- Reads inside the saved context region see exactly the `regs2ctxt`
output: no later write of the dispatcher lands there. -/
theorem dispatch_read_ctxt (regs : RegFile) (mem : Mem) (code b : Nat)
    (h1 : 0x3d8 ≤ regs.esp) (h2 : regs.esp ≤ tib_address)
    (hb : regs.esp - 0x3c8 + 0xfc ≤ b ∧ b < regs.esp) :
    readU32 (fake_seh_handler regs mem code).2.1 b =
      readU32 (regs2ctxt regs (regs.esp - 0x3c8 + 0xfc) mem) b := by
  have htib : tib_address = 0x7ff70000 := rfl
  rw [fake_seh_handler_mem]
  apply peel_ne
  apply peel_ne
  apply peel_ne
  apply peel_ne
  apply peel_ne
  apply peel_ne
  apply peel_ne
  apply peel_ne
  apply peel_ne
  apply peel_ne
  apply peel_ne
  apply peel_ne
  apply peel_ne
  apply peel_ne
  exact rfl
  all_goals omega

/-- The SEH head slot after dispatch holds the synthetic frame address
(frame base + 0x14). -/
theorem dispatch_read_tib (regs : RegFile) (mem : Mem) (code : Nat)
    (h1 : 0x3d8 ≤ regs.esp) (h2 : regs.esp ≤ tib_address) :
    readU32 (fake_seh_handler regs mem code).2.1 tib_address =
      regs.esp - 0x3c8 + 0x14 := by
  have htib : tib_address = 0x7ff70000 := rfl
  rw [fake_seh_handler_mem]
  refine peel_hit _ _ _ _ _ rfl ?_
  omega

/-- The synthetic SEH frame's previous link holds the pre-fault head. -/
theorem dispatch_read_fake0 (regs : RegFile) (mem : Mem) (code : Nat)
    (h1 : 0x3d8 ≤ regs.esp) (h2 : regs.esp ≤ tib_address) :
    readU32 (fake_seh_handler regs mem code).2.1 (regs.esp - 0x3c8 + 0x14) =
      readU32 mem tib_address := by
  have htib : tib_address = 0x7ff70000 := rfl
  have haux := regs2ctxt_read_out regs (regs.esp - 0x3c8 + 0xfc) mem
    tib_address (Or.inr (by omega))
  have hlt := readU32_lt mem tib_address
  rw [fake_seh_handler_mem]
  apply peel_ne
  apply peel_ne
  apply peel_ne
  apply peel_ne
  refine peel_hit _ _ _ _ _ rfl ?_
  all_goals omega

/-- The first push (at frame base - 4) holds the context address. -/
theorem dispatch_read_push_ctxt (regs : RegFile) (mem : Mem) (code : Nat)
    (h1 : 0x3d8 ≤ regs.esp) (h2 : regs.esp ≤ tib_address) :
    readU32 (fake_seh_handler regs mem code).2.1 (regs.esp - 0x3c8 - 4) =
      regs.esp - 0x3c8 + 0xfc := by
  have htib : tib_address = 0x7ff70000 := rfl
  rw [fake_seh_handler_mem]
  apply peel_ne
  apply peel_ne
  apply peel_ne
  apply peel_ne
  apply peel_ne
  apply peel_ne
  apply peel_ne
  apply peel_ne
  refine peel_hit _ _ _ _ _ rfl ?_
  all_goals omega

/-- Field +16 of the exception record written by the dispatcher. -/
theorem dispatch_read_record_16 (regs : RegFile) (mem : Mem) (code : Nat)
    (h1 : 0x3d8 ≤ regs.esp) (h2 : regs.esp ≤ tib_address) :
    readU32 (fake_seh_handler regs mem code).2.1 (regs.esp - 0x3c8 + 0xe8 + 16) =
      0 := by
  have htib : tib_address = 0x7ff70000 := rfl
  rw [fake_seh_handler_mem]
  apply peel_ne
  apply peel_ne
  apply peel_ne
  apply peel_ne
  apply peel_ne
  apply peel_ne
  apply peel_ne
  apply peel_ne
  apply peel_ne
  refine peel_hit _ _ _ _ _ rfl ?_
  all_goals omega

/-- Field +12 of the exception record written by the dispatcher. -/
theorem dispatch_read_record_12 (regs : RegFile) (mem : Mem) (code : Nat)
    (h1 : 0x3d8 ≤ regs.esp) (h2 : regs.esp ≤ tib_address) :
    readU32 (fake_seh_handler regs mem code).2.1 (regs.esp - 0x3c8 + 0xe8 + 12) =
      regs.eip % 4294967296 := by
  have htib : tib_address = 0x7ff70000 := rfl
  rw [fake_seh_handler_mem]
  apply peel_ne
  apply peel_ne
  apply peel_ne
  apply peel_ne
  apply peel_ne
  apply peel_ne
  apply peel_ne
  apply peel_ne
  apply peel_ne
  apply peel_ne
  refine peel_hit _ _ _ _ _ rfl ?_
  all_goals omega

/-- Field +8 of the exception record written by the dispatcher. -/
theorem dispatch_read_record_8 (regs : RegFile) (mem : Mem) (code : Nat)
    (h1 : 0x3d8 ≤ regs.esp) (h2 : regs.esp ≤ tib_address) :
    readU32 (fake_seh_handler regs mem code).2.1 (regs.esp - 0x3c8 + 0xe8 + 8) =
      0 := by
  have htib : tib_address = 0x7ff70000 := rfl
  rw [fake_seh_handler_mem]
  apply peel_ne
  apply peel_ne
  apply peel_ne
  apply peel_ne
  apply peel_ne
  apply peel_ne
  apply peel_ne
  apply peel_ne
  apply peel_ne
  apply peel_ne
  apply peel_ne
  refine peel_hit _ _ _ _ _ rfl ?_
  all_goals omega

/-- Field +4 of the exception record written by the dispatcher. -/
theorem dispatch_read_record_4 (regs : RegFile) (mem : Mem) (code : Nat)
    (h1 : 0x3d8 ≤ regs.esp) (h2 : regs.esp ≤ tib_address) :
    readU32 (fake_seh_handler regs mem code).2.1 (regs.esp - 0x3c8 + 0xe8 + 4) =
      0 := by
  have htib : tib_address = 0x7ff70000 := rfl
  rw [fake_seh_handler_mem]
  apply peel_ne
  apply peel_ne
  apply peel_ne
  apply peel_ne
  apply peel_ne
  apply peel_ne
  apply peel_ne
  apply peel_ne
  apply peel_ne
  apply peel_ne
  apply peel_ne
  apply peel_ne
  refine peel_hit _ _ _ _ _ rfl ?_
  all_goals omega

/-- Field +0 of the exception record written by the dispatcher. -/
theorem dispatch_read_record_0 (regs : RegFile) (mem : Mem) (code : Nat)
    (h1 : 0x3d8 ≤ regs.esp) (h2 : regs.esp ≤ tib_address) :
    readU32 (fake_seh_handler regs mem code).2.1 (regs.esp - 0x3c8 + 0xe8) =
      code % 4294967296 := by
  have htib : tib_address = 0x7ff70000 := rfl
  rw [fake_seh_handler_mem]
  apply peel_ne
  apply peel_ne
  apply peel_ne
  apply peel_ne
  apply peel_ne
  apply peel_ne
  apply peel_ne
  apply peel_ne
  apply peel_ne
  apply peel_ne
  apply peel_ne
  apply peel_ne
  apply peel_ne
  refine peel_hit _ _ _ _ _ rfl ?_
  all_goals omega


/-- `return_from_seh` in the continue-execution case (EAX = 0): ESP is
reset from the saved context, the SEH head slot is restored from the
synthetic frame's previous link, all covered registers are restored from
the saved context and the program counter is set to the restored EIP. -/
theorem return_from_seh_continue (regs0 : RegFile) (mem : Mem)
    (h : regs0.eax = 0) :
    return_from_seh regs0 mem =
      SehReturnResult.continueExec
        (ctxt2regs (writeU32 mem tib_address (readU32 mem (readU32 mem tib_address)))
          (readU32 mem (regs0.esp + 0x8)))
        (writeU32 mem tib_address (readU32 mem (readU32 mem tib_address)))
        ((ctxt2regs (writeU32 mem tib_address (readU32 mem (readU32 mem tib_address)))
          (readU32 mem (regs0.esp + 0x8))).eip) := by
  obtain ⟨g, f, e, d, di, si, bx, dx, cx, ax, bp, ip, cc, sp, sg⟩ := regs0
  replace h : ax = 0 := h
  subst h
  rfl

/-- The dispatch/resume round trip: `fake_seh_handler` followed, after a
plain-returning continue-execution handler, by `return_from_seh` yields
resumed execution with the exact pre-fault register file, the program
counter at the pre-fault EIP, and the dispatch memory with the SEH head
slot restored to the pre-fault head. -/
theorem roundtrip_core (regs : RegFile) (mem : Mem) (hwf : regs.wf)
    (h1 : 0x3d8 ≤ regs.esp) (h2 : regs.esp ≤ tib_address) :
    return_from_seh
        (handlerPlainReturn (fake_seh_handler regs mem EXCEPTION_ACCESS_VIOLATION).1)
        (fake_seh_handler regs mem EXCEPTION_ACCESS_VIOLATION).2.1 =
      SehReturnResult.continueExec regs
        (writeU32 (fake_seh_handler regs mem EXCEPTION_ACCESS_VIOLATION).2.1
          tib_address (readU32 mem tib_address))
        regs.eip := by
  obtain ⟨hg, hf, hesg, hdsg, hdi, hsi, hbx, hdx, hcx, hax, hbp, hip, hcsg,
    hspg, hssg⟩ := hwf
  have htib : tib_address = 0x7ff70000 := rfl
  rw [return_from_seh_continue _ _ rfl]
  have hesp : (handlerPlainReturn
      (fake_seh_handler regs mem EXCEPTION_ACCESS_VIOLATION).1).esp =
      regs.esp - 0x3c8 - 4 - 4 - 4 - 4 + 4 := rfl
  rw [hesp]
  have harith : regs.esp - 0x3c8 - 4 - 4 - 4 - 4 + 4 + 0x8 =
      regs.esp - 0x3c8 - 4 := by omega
  rw [harith, dispatch_read_push_ctxt regs mem EXCEPTION_ACCESS_VIOLATION h1 h2,
    dispatch_read_tib regs mem EXCEPTION_ACCESS_VIOLATION h1 h2,
    dispatch_read_fake0 regs mem EXCEPTION_ACCESS_VIOLATION h1 h2]
  have e_gs : readU32
      (writeU32 (fake_seh_handler regs mem EXCEPTION_ACCESS_VIOLATION).2.1
        tib_address (readU32 mem tib_address))
      (regs.esp - 0x3c8 + 0xfc + 0x8C) = regs.gs := by
    apply peel_ne
    · rw [dispatch_read_ctxt regs mem EXCEPTION_ACCESS_VIOLATION
        (regs.esp - 0x3c8 + 0xfc + 0x8C) h1 h2 (by omega), regs2ctxt_read_gs]
      omega
    · omega
  have e_fs : readU32
      (writeU32 (fake_seh_handler regs mem EXCEPTION_ACCESS_VIOLATION).2.1
        tib_address (readU32 mem tib_address))
      (regs.esp - 0x3c8 + 0xfc + 0x90) = regs.fs := by
    apply peel_ne
    · rw [dispatch_read_ctxt regs mem EXCEPTION_ACCESS_VIOLATION
        (regs.esp - 0x3c8 + 0xfc + 0x90) h1 h2 (by omega), regs2ctxt_read_fs]
      omega
    · omega
  have e_es : readU32
      (writeU32 (fake_seh_handler regs mem EXCEPTION_ACCESS_VIOLATION).2.1
        tib_address (readU32 mem tib_address))
      (regs.esp - 0x3c8 + 0xfc + 0x94) = regs.es := by
    apply peel_ne
    · rw [dispatch_read_ctxt regs mem EXCEPTION_ACCESS_VIOLATION
        (regs.esp - 0x3c8 + 0xfc + 0x94) h1 h2 (by omega), regs2ctxt_read_es]
      omega
    · omega
  have e_ds : readU32
      (writeU32 (fake_seh_handler regs mem EXCEPTION_ACCESS_VIOLATION).2.1
        tib_address (readU32 mem tib_address))
      (regs.esp - 0x3c8 + 0xfc + 0x98) = regs.ds := by
    apply peel_ne
    · rw [dispatch_read_ctxt regs mem EXCEPTION_ACCESS_VIOLATION
        (regs.esp - 0x3c8 + 0xfc + 0x98) h1 h2 (by omega), regs2ctxt_read_ds]
      omega
    · omega
  have e_edi : readU32
      (writeU32 (fake_seh_handler regs mem EXCEPTION_ACCESS_VIOLATION).2.1
        tib_address (readU32 mem tib_address))
      (regs.esp - 0x3c8 + 0xfc + 0x9C) = regs.edi := by
    apply peel_ne
    · rw [dispatch_read_ctxt regs mem EXCEPTION_ACCESS_VIOLATION
        (regs.esp - 0x3c8 + 0xfc + 0x9C) h1 h2 (by omega), regs2ctxt_read_edi]
      omega
    · omega
  have e_esi : readU32
      (writeU32 (fake_seh_handler regs mem EXCEPTION_ACCESS_VIOLATION).2.1
        tib_address (readU32 mem tib_address))
      (regs.esp - 0x3c8 + 0xfc + 0xA0) = regs.esi := by
    apply peel_ne
    · rw [dispatch_read_ctxt regs mem EXCEPTION_ACCESS_VIOLATION
        (regs.esp - 0x3c8 + 0xfc + 0xA0) h1 h2 (by omega), regs2ctxt_read_esi]
      omega
    · omega
  have e_ebx : readU32
      (writeU32 (fake_seh_handler regs mem EXCEPTION_ACCESS_VIOLATION).2.1
        tib_address (readU32 mem tib_address))
      (regs.esp - 0x3c8 + 0xfc + 0xA4) = regs.ebx := by
    apply peel_ne
    · rw [dispatch_read_ctxt regs mem EXCEPTION_ACCESS_VIOLATION
        (regs.esp - 0x3c8 + 0xfc + 0xA4) h1 h2 (by omega), regs2ctxt_read_ebx]
      omega
    · omega
  have e_edx : readU32
      (writeU32 (fake_seh_handler regs mem EXCEPTION_ACCESS_VIOLATION).2.1
        tib_address (readU32 mem tib_address))
      (regs.esp - 0x3c8 + 0xfc + 0xA8) = regs.edx := by
    apply peel_ne
    · rw [dispatch_read_ctxt regs mem EXCEPTION_ACCESS_VIOLATION
        (regs.esp - 0x3c8 + 0xfc + 0xA8) h1 h2 (by omega), regs2ctxt_read_edx]
      omega
    · omega
  have e_ecx : readU32
      (writeU32 (fake_seh_handler regs mem EXCEPTION_ACCESS_VIOLATION).2.1
        tib_address (readU32 mem tib_address))
      (regs.esp - 0x3c8 + 0xfc + 0xAC) = regs.ecx := by
    apply peel_ne
    · rw [dispatch_read_ctxt regs mem EXCEPTION_ACCESS_VIOLATION
        (regs.esp - 0x3c8 + 0xfc + 0xAC) h1 h2 (by omega), regs2ctxt_read_ecx]
      omega
    · omega
  have e_eax : readU32
      (writeU32 (fake_seh_handler regs mem EXCEPTION_ACCESS_VIOLATION).2.1
        tib_address (readU32 mem tib_address))
      (regs.esp - 0x3c8 + 0xfc + 0xB0) = regs.eax := by
    apply peel_ne
    · rw [dispatch_read_ctxt regs mem EXCEPTION_ACCESS_VIOLATION
        (regs.esp - 0x3c8 + 0xfc + 0xB0) h1 h2 (by omega), regs2ctxt_read_eax]
      omega
    · omega
  have e_ebp : readU32
      (writeU32 (fake_seh_handler regs mem EXCEPTION_ACCESS_VIOLATION).2.1
        tib_address (readU32 mem tib_address))
      (regs.esp - 0x3c8 + 0xfc + 0xB4) = regs.ebp := by
    apply peel_ne
    · rw [dispatch_read_ctxt regs mem EXCEPTION_ACCESS_VIOLATION
        (regs.esp - 0x3c8 + 0xfc + 0xB4) h1 h2 (by omega), regs2ctxt_read_ebp]
      omega
    · omega
  have e_eip : readU32
      (writeU32 (fake_seh_handler regs mem EXCEPTION_ACCESS_VIOLATION).2.1
        tib_address (readU32 mem tib_address))
      (regs.esp - 0x3c8 + 0xfc + 0xB8) = regs.eip := by
    apply peel_ne
    · rw [dispatch_read_ctxt regs mem EXCEPTION_ACCESS_VIOLATION
        (regs.esp - 0x3c8 + 0xfc + 0xB8) h1 h2 (by omega), regs2ctxt_read_eip]
      omega
    · omega
  have e_cs : readU32
      (writeU32 (fake_seh_handler regs mem EXCEPTION_ACCESS_VIOLATION).2.1
        tib_address (readU32 mem tib_address))
      (regs.esp - 0x3c8 + 0xfc + 0xBC) = regs.cs := by
    apply peel_ne
    · rw [dispatch_read_ctxt regs mem EXCEPTION_ACCESS_VIOLATION
        (regs.esp - 0x3c8 + 0xfc + 0xBC) h1 h2 (by omega), regs2ctxt_read_cs]
      omega
    · omega
  have e_esp : readU32
      (writeU32 (fake_seh_handler regs mem EXCEPTION_ACCESS_VIOLATION).2.1
        tib_address (readU32 mem tib_address))
      (regs.esp - 0x3c8 + 0xfc + 0xC4) = regs.esp := by
    apply peel_ne
    · rw [dispatch_read_ctxt regs mem EXCEPTION_ACCESS_VIOLATION
        (regs.esp - 0x3c8 + 0xfc + 0xC4) h1 h2 (by omega), regs2ctxt_read_esp]
      omega
    · omega
  have e_ss : readU32
      (writeU32 (fake_seh_handler regs mem EXCEPTION_ACCESS_VIOLATION).2.1
        tib_address (readU32 mem tib_address))
      (regs.esp - 0x3c8 + 0xfc + 0xC8) = regs.ss := by
    apply peel_ne
    · rw [dispatch_read_ctxt regs mem EXCEPTION_ACCESS_VIOLATION
        (regs.esp - 0x3c8 + 0xfc + 0xC8) h1 h2 (by omega), regs2ctxt_read_ss]
      omega
    · omega
  have hreg : ctxt2regs
      (writeU32 (fake_seh_handler regs mem EXCEPTION_ACCESS_VIOLATION).2.1
        tib_address (readU32 mem tib_address))
      (regs.esp - 0x3c8 + 0xfc) = regs :=
    RegFile.ext e_gs e_fs e_es e_ds e_edi e_esi e_ebx e_edx e_ecx e_eax e_ebp
      e_eip e_cs e_esp e_ss
  rw [hreg]

/-- Concrete pre-fault register file used by the witnesses. -/
def regsW : RegFile :=
  ⟨11, 12, 13, 14, 15, 16, 17, 18, 19, 20, 21, 0x401000, 22, 0x1000, 23⟩

/-- Concrete all-zero memory used by the witnesses. -/
def memW : Mem := fun _ => 0

/-- C1: `dispatch(0xC0000005)` at instruction pointer P, followed by
`returnFromHandler()` after a handler that only does a plain return with
disposition continue-execution (EAX = 0) and modifies nothing, resumes
execution with every covered register-file field and the stack pointer
at their exact pre-fault values, the SEH chain head slot at the
thread-info-block address restored to its exact pre-fault value, and the
resumed instruction pointer equal to P. -/
theorem claim_c1_dispatch_return_roundtrip (regs : RegFile) (mem : Mem)
    (hwf : regs.wf) (h1 : 0x3d8 ≤ regs.esp) (h2 : regs.esp ≤ tib_address) :
    return_from_seh
        (handlerPlainReturn (fake_seh_handler regs mem EXCEPTION_ACCESS_VIOLATION).1)
        (fake_seh_handler regs mem EXCEPTION_ACCESS_VIOLATION).2.1 =
      SehReturnResult.continueExec regs
        (writeU32 (fake_seh_handler regs mem EXCEPTION_ACCESS_VIOLATION).2.1
          tib_address (readU32 mem tib_address))
        regs.eip ∧
    readU32 (SehReturnResult.outMem (return_from_seh
        (handlerPlainReturn (fake_seh_handler regs mem EXCEPTION_ACCESS_VIOLATION).1)
        (fake_seh_handler regs mem EXCEPTION_ACCESS_VIOLATION).2.1)) tib_address =
      readU32 mem tib_address := by
  refine ⟨roundtrip_core regs mem hwf h1 h2, ?_⟩
  rw [roundtrip_core regs mem hwf h1 h2]
  show readU32 (writeU32 _ tib_address (readU32 mem tib_address)) tib_address =
    readU32 mem tib_address
  have hlt := readU32_lt mem tib_address
  refine peel_hit _ _ _ _ _ rfl ?_
  omega

/-- Witness for C1 at a concrete pre-fault state. -/
theorem claim_c1_witness :
    (RegFile.wf regsW ∧ 0x3d8 ≤ regsW.esp ∧ regsW.esp ≤ tib_address) ∧
    (return_from_seh
        (handlerPlainReturn (fake_seh_handler regsW memW EXCEPTION_ACCESS_VIOLATION).1)
        (fake_seh_handler regsW memW EXCEPTION_ACCESS_VIOLATION).2.1 =
      SehReturnResult.continueExec regsW
        (writeU32 (fake_seh_handler regsW memW EXCEPTION_ACCESS_VIOLATION).2.1
          tib_address (readU32 memW tib_address))
        regsW.eip ∧
    readU32 (SehReturnResult.outMem (return_from_seh
        (handlerPlainReturn (fake_seh_handler regsW memW EXCEPTION_ACCESS_VIOLATION).1)
        (fake_seh_handler regsW memW EXCEPTION_ACCESS_VIOLATION).2.1)) tib_address =
      readU32 memW tib_address) :=
  ⟨⟨by decide, by decide, by decide⟩,
   claim_c1_dispatch_return_roundtrip regsW memW (by decide) (by decide) (by decide)⟩

/-- C4: the exception record written by `dispatch(0xC0000005)` at
instruction pointer P (at offset 0xe8 of the reserved frame) has
exception code 0xC0000005, exception flags 0, chained-record pointer 0,
faulting address P and parameter count 0. -/
theorem claim_c4_exception_record (regs : RegFile) (mem : Mem)
    (hwf : regs.wf) (h1 : 0x3d8 ≤ regs.esp) (h2 : regs.esp ≤ tib_address) :
    readU32 (fake_seh_handler regs mem EXCEPTION_ACCESS_VIOLATION).2.1
        (regs.esp - 0x3c8 + 0xe8) = EXCEPTION_ACCESS_VIOLATION ∧
    readU32 (fake_seh_handler regs mem EXCEPTION_ACCESS_VIOLATION).2.1
        (regs.esp - 0x3c8 + 0xe8 + 4) = 0 ∧
    readU32 (fake_seh_handler regs mem EXCEPTION_ACCESS_VIOLATION).2.1
        (regs.esp - 0x3c8 + 0xe8 + 8) = 0 ∧
    readU32 (fake_seh_handler regs mem EXCEPTION_ACCESS_VIOLATION).2.1
        (regs.esp - 0x3c8 + 0xe8 + 12) = regs.eip ∧
    readU32 (fake_seh_handler regs mem EXCEPTION_ACCESS_VIOLATION).2.1
        (regs.esp - 0x3c8 + 0xe8 + 16) = 0 := by
  obtain ⟨hg, hf, hesg, hdsg, hdi, hsi, hbx, hdx, hcx, hax, hbp, hip, hcsg,
    hspg, hssg⟩ := hwf
  refine ⟨?_, dispatch_read_record_4 regs mem _ h1 h2,
    dispatch_read_record_8 regs mem _ h1 h2, ?_,
    dispatch_read_record_16 regs mem _ h1 h2⟩
  · rw [dispatch_read_record_0 regs mem EXCEPTION_ACCESS_VIOLATION h1 h2]
    decide
  · rw [dispatch_read_record_12 regs mem EXCEPTION_ACCESS_VIOLATION h1 h2]
    omega

/-- Witness for C4 at a concrete pre-fault state. -/
theorem claim_c4_witness :
    (RegFile.wf regsW ∧ 0x3d8 ≤ regsW.esp ∧ regsW.esp ≤ tib_address) ∧
    (readU32 (fake_seh_handler regsW memW EXCEPTION_ACCESS_VIOLATION).2.1
        (regsW.esp - 0x3c8 + 0xe8) = EXCEPTION_ACCESS_VIOLATION ∧
    readU32 (fake_seh_handler regsW memW EXCEPTION_ACCESS_VIOLATION).2.1
        (regsW.esp - 0x3c8 + 0xe8 + 4) = 0 ∧
    readU32 (fake_seh_handler regsW memW EXCEPTION_ACCESS_VIOLATION).2.1
        (regsW.esp - 0x3c8 + 0xe8 + 8) = 0 ∧
    readU32 (fake_seh_handler regsW memW EXCEPTION_ACCESS_VIOLATION).2.1
        (regsW.esp - 0x3c8 + 0xe8 + 12) = regsW.eip ∧
    readU32 (fake_seh_handler regsW memW EXCEPTION_ACCESS_VIOLATION).2.1
        (regsW.esp - 0x3c8 + 0xe8 + 16) = 0) :=
  ⟨⟨by decide, by decide, by decide⟩,
   claim_c4_exception_record regsW memW (by decide) (by decide) (by decide)⟩

/-- C10: on every dispatch, EBX is cleared after the register file has
been saved, so the guest handler always observes EBX = 0; after a
continue-execution resume the restore brings back the saved EBX. -/
theorem claim_c10_ebx_clobber (regs : RegFile) (mem : Mem) (code : Nat)
    (hwf : regs.wf) (h1 : 0x3d8 ≤ regs.esp) (h2 : regs.esp ≤ tib_address) :
    (fake_seh_handler regs mem code).1.ebx = 0 ∧
    (SehReturnResult.outRegs (return_from_seh
        (handlerPlainReturn (fake_seh_handler regs mem EXCEPTION_ACCESS_VIOLATION).1)
        (fake_seh_handler regs mem EXCEPTION_ACCESS_VIOLATION).2.1)).ebx =
      regs.ebx := by
  refine ⟨rfl, ?_⟩
  rw [roundtrip_core regs mem hwf h1 h2]
  rfl

/-- Witness for C10 at a concrete pre-fault state. -/
theorem claim_c10_witness :
    (RegFile.wf regsW ∧ 0x3d8 ≤ regsW.esp ∧ regsW.esp ≤ tib_address) ∧
    ((fake_seh_handler regsW memW 7).1.ebx = 0 ∧
    (SehReturnResult.outRegs (return_from_seh
        (handlerPlainReturn (fake_seh_handler regsW memW EXCEPTION_ACCESS_VIOLATION).1)
        (fake_seh_handler regsW memW EXCEPTION_ACCESS_VIOLATION).2.1)).ebx =
      regsW.ebx) :=
  ⟨⟨by decide, by decide, by decide⟩,
   claim_c10_ebx_clobber regsW memW 7 (by decide) (by decide) (by decide)⟩

/-- Concrete post-dispatch register file with EAX = 0xffffffff, the
unsigned value a handler returning the decline-and-unwind disposition -1
leaves in the 32-bit EAX register. -/
def regsC7 : RegFile :=
  ⟨1, 2, 3, 4, 5, 6, 7, 8, 9, 0xffffffff, 10, 11, 12, 0x2000, 13⟩

/-- C7, settled against the code: with EAX = 0xffffffff (decline
disposition), `return_from_seh` matches none of its branches — the
`EAX == -1` comparison cannot hold for the unsigned register — and falls
through silently instead of raising the NotImplementedError; with
EAX = 1 (continue-search) it does raise. -/
theorem claim_c7_eax_minus_one_dead_branch :
    (return_from_seh regsC7 memW).isFallThrough = true ∧
    (return_from_seh regsC7 memW).isNextHandlerRaise = false ∧
    (return_from_seh { regsC7 with eax := 1 } memW).isGameOverRaise = true := by
  refine ⟨rfl, rfl, rfl⟩


/-! ## SEH chain walker (`dump_seh`) -/

/-- The walker's view of the VM: the word memory plus the
`jitter.vm.is_mapped(addr, 8)` test of the memory subsystem (the SEH
frame is two 32-bit words, 8 bytes). -/
structure WalkerVm where
  mem : Mem
  mapped8 : Nat → Bool

/-- State of the `dump_seh` loop: either still walking (current frame
address and the `loop` hop counter) or stopped for one of the three
reasons. -/
inductive WalkState where
  | running (cur : Nat) (loop : Nat)
  | stopTooMany
  | stopUnmapped
  | stopPrevZero
deriving DecidableEq

def WalkState.isStopped : WalkState → Bool
  | .running _ _ => false
  | _ => true

/-- One iteration of the `while True` body of `dump_seh`, testing in the
source's order: quit when the hop counter exceeds MAX_SEH, break when
the current frame is not mapped for 8 bytes, read the frame and break
when its previous link is zero, else follow the previous link and count
the hop. -/
def dump_seh_step (vm : WalkerVm) : WalkState → WalkState
  | .running cur loop =>
      if loop > MAX_SEH then .stopTooMany
      else if ¬ vm.mapped8 cur then .stopUnmapped
      else
        let prev_seh := readU32 vm.mem cur
        if prev_seh = 0 then .stopPrevZero
        else .running prev_seh (loop + 1)
  | s => s

/-- `fuel` iterations of the `dump_seh` loop body. -/
def dump_seh_run (vm : WalkerVm) : Nat → WalkState → WalkState
  | 0, s => s
  | fuel + 1, s => dump_seh_run vm fuel (dump_seh_step vm s)

theorem dump_seh_run_stopped (vm : WalkerVm) (fuel : Nat) (s : WalkState)
    (h : s.isStopped = true) : dump_seh_run vm fuel s = s := by
  induction fuel with
  | zero => rfl
  | succ n ih =>
      have hstep : dump_seh_step vm s = s := by
        cases s with
        | running cur loop => simp [WalkState.isStopped] at h
        | stopTooMany => rfl
        | stopUnmapped => rfl
        | stopPrevZero => rfl
      show dump_seh_run vm n (dump_seh_step vm s) = s
      rw [hstep, ih]

theorem dump_seh_terminates_aux (vm : WalkerVm) :
    ∀ (k cur loop : Nat), MAX_SEH + 2 ≤ k + loop → 1 ≤ k →
      (dump_seh_run vm k (.running cur loop)).isStopped = true := by
  intro k
  induction k with
  | zero => intro cur loop h hk; exact absurd hk (by omega)
  | succ n ih =>
      intro cur loop h hk
      have hM : MAX_SEH = 5 := rfl
      show (dump_seh_run vm n (dump_seh_step vm (.running cur loop))).isStopped = true
      by_cases hl : loop > MAX_SEH
      · rw [show dump_seh_step vm (.running cur loop) = .stopTooMany by
          simp [dump_seh_step, hl]]
        rw [dump_seh_run_stopped vm n WalkState.stopTooMany rfl]
        rfl
      · by_cases hm : vm.mapped8 cur
        · by_cases hz : readU32 vm.mem cur = 0
          · rw [show dump_seh_step vm (.running cur loop) = .stopPrevZero by
              simp [dump_seh_step, hl, hm, hz]]
            rw [dump_seh_run_stopped vm n WalkState.stopPrevZero rfl]
            rfl
          · rw [show dump_seh_step vm (.running cur loop) =
                .running (readU32 vm.mem cur) (loop + 1) by
              simp [dump_seh_step, hl, hm, hz]]
            exact ih _ (loop + 1) (by omega) (by omega)
        · rw [show dump_seh_step vm (.running cur loop) = .stopUnmapped by
            simp [dump_seh_step, hl, hm]]
          rw [dump_seh_run_stopped vm n WalkState.stopUnmapped rfl]
          rfl

/-- C8: for every memory, mapping predicate and initial chain head —
including a chain whose frame references itself or forms a cycle — the
`dump_seh` walker reaches a stopped state within MAX_SEH + 2 iterations
of its loop body; the stop conditions (hop count exceeded, frame
unmapped or smaller than 8 bytes, previous link zero) are tested in that
order by `dump_seh_step`.  The second conjunct runs the walker on a
fully-mapped chain whose frame points at itself: it stops by hop count
alone. -/
theorem claim_c8_walker_terminates :
    (∀ (vm : WalkerVm) (head : Nat),
      (dump_seh_run vm (MAX_SEH + 2) (.running head 0)).isStopped = true) ∧
    dump_seh_run ⟨fun _ => 0x5000, fun _ => true⟩ (MAX_SEH + 2)
        (.running 0x5000 0) = .stopTooMany := by
  constructor
  · intro vm head
    exact dump_seh_terminates_aux vm (MAX_SEH + 2) head 0 (by omega) (by omega)
  · decide

/-! ## Process environment block builder (`build_peb`) -/

/-- `build_peb(jitter, peb_address)`: allocate only the needed PEB
bytes — with a main module, 8 bytes covering ImageBaseAddress (+0x8) and
Ldr (+0xC); without one, 4 bytes covering only Ldr — then write
ImageBaseAddress (the main module's image base, only when present) and
Ldr (the loader-data address, unconditionally).  Returns the allocated
page as (start, length) plus the memory.  Modelled from the spec: the
PEB field offsets ImageBaseAddress +0x8 and Ldr +0xC come through
`win_32_structs.PEB` (outside `src/`) and are the published native
layout, matching the offsets hard-coded in the allocation arithmetic. -/
def build_peb (main_pe : Option Nat) (mem : Mem) : (Nat × Nat) × Mem :=
  let ol : Nat × Nat :=
    match main_pe with
    | some _ => (peb_address + 8, 4)
    | none => (peb_address + 0xC, 0)
  let length := ol.2 + 4
  let mem0 := memsetZero mem ol.1 length
  let mem1 :=
    match main_pe with
    | some base => writeU32 mem0 (peb_address + 8) base
    | none => mem0
  let mem2 := writeU32 mem1 (peb_address + 0xC) peb_ldr_data_address
  ((ol.1, length), mem2)

/-- C9: with no main module, `build_peb` completes and allocates only
the 4 bytes of the Ldr field at +0xC — the ImageBaseAddress bytes
[+0x8, +0xC) are outside the allocated range and are not written — while
the Ldr field is set to the loader-data address, as it also is when a
main module is present. -/
theorem claim_c9_no_main_module (mem : Mem) (b main_base : Nat)
    (hb : peb_address + 8 ≤ b ∧ b < peb_address + 0xC) :
    (build_peb none mem).1 = (peb_address + 0xC, 4) ∧
    (b < (build_peb none mem).1.1 ∨
      (build_peb none mem).1.1 + (build_peb none mem).1.2 ≤ b) ∧
    readU32 (build_peb none mem).2 b = readU32 mem b ∧
    readU32 (build_peb none mem).2 (peb_address + 0xC) = peb_ldr_data_address ∧
    readU32 (build_peb (some main_base) mem).2 (peb_address + 0xC) =
      peb_ldr_data_address := by
  have hpeb : peb_address = 0x7ffdf000 := rfl
  have hldr : peb_ldr_data_address = 0x341ea0 := rfl
  refine ⟨rfl, ?_, ?_, ?_, ?_⟩
  · show b < peb_address + 0xC ∨ peb_address + 0xC + 4 ≤ b
    omega
  · show readU32 (writeU32 (memsetZero mem (peb_address + 0xC) 4)
        (peb_address + 0xC) peb_ldr_data_address) b = readU32 mem b
    apply peel_ne
    · refine peel_memset_out _ _ _ _ _ rfl ?_
      omega
    · omega
  · show readU32 (writeU32 (memsetZero mem (peb_address + 0xC) 4)
        (peb_address + 0xC) peb_ldr_data_address) (peb_address + 0xC) =
      peb_ldr_data_address
    refine peel_hit _ _ _ _ _ rfl ?_
    omega
  · show readU32 (writeU32 (writeU32 (memsetZero mem (peb_address + 8) 8)
        (peb_address + 8) main_base)
        (peb_address + 0xC) peb_ldr_data_address) (peb_address + 0xC) =
      peb_ldr_data_address
    refine peel_hit _ _ _ _ _ rfl ?_
    omega

/-- Witness for C9 at a concrete memory and field byte. -/
theorem claim_c9_witness :
    (peb_address + 8 ≤ peb_address + 9 ∧ peb_address + 9 < peb_address + 0xC) ∧
    ((build_peb none memW).1 = (peb_address + 0xC, 4) ∧
    (peb_address + 9 < (build_peb none memW).1.1 ∨
      (build_peb none memW).1.1 + (build_peb none memW).1.2 ≤ peb_address + 9) ∧
    readU32 (build_peb none memW).2 (peb_address + 9) = readU32 memW (peb_address + 9) ∧
    readU32 (build_peb none memW).2 (peb_address + 0xC) = peb_ldr_data_address ∧
    readU32 (build_peb (some 0x400000) memW).2 (peb_address + 0xC) =
      peb_ldr_data_address) :=
  ⟨by decide, claim_c9_no_main_module memW (peb_address + 9) 0x400000 (by decide)⟩


/-! ## Module registry and loader-list fixups -/

/-- `LoadedModules`: the module registry.  Modules are opaque ids
(`Nat`); `modules` preserves registration order, `name2module` is the
name lookup (absent names yield `none`), `module2entry` maps a module to
its descriptor address.  (`module2name` is not consulted by the list
fixups and is omitted.) -/
structure LoadedModules where
  modules : List Nat
  name2module : String → Option Nat
  module2entry : Nat → Nat

/-- `next_module_entry` of member `i`: the next member's descriptor, or
the loader-data list head `peb_ldr_data_address + 0xC` for the last. -/
def nextEntry (loaded : List Nat) (m2e : Nat → Nat) (i : Nat) : Nat :=
  if i = loaded.length - 1 then peb_ldr_data_address + 0xC
  else m2e (loaded.getD ((i + 1) % loaded.length) 0)

/-- `prev_module_entry` of member `i`: the previous member's descriptor,
or the loader-data list head for the first ((i - 1) % n of the source is
Python's modulo, i.e. (i + n - 1) % n). -/
def prevEntry (loaded : List Nat) (m2e : Nat → Nat) (i : Nat) : Nat :=
  if i = 0 then peb_ldr_data_address + 0xC
  else m2e (loaded.getD ((i + loaded.length - 1) % loaded.length) 0)

/-- The loop body of `set_link_list_entry`: member `i`'s flink word at
entry+offset points at the next member's link field, its blink word at
entry+offset+4 at the previous member's link field. -/
def writeLinkPair (loaded : List Nat) (m2e : Nat → Nat) (offset : Nat)
    (mem : Mem) (i : Nat) : Mem :=
  writeU32
    (writeU32 mem (m2e (loaded.getD i 0) + offset)
      (nextEntry loaded m2e i + offset))
    (m2e (loaded.getD i 0) + offset + 4)
    (prevEntry loaded m2e i + offset)

/-- `set_link_list_entry(jitter, loaded_modules, modules_info, offset)`:
write both link words for every member. -/
def set_link_list_entry (loaded : List Nat) (m2e : Nat → Nat)
    (offset : Nat) (mem : Mem) : Mem :=
  (List.range loaded.length).foldl (writeLinkPair loaded m2e offset) mem

/-- The `loaded_modules` sequence of `fix_InLoadOrderModuleList` and
`fix_InMemoryOrderModuleList`: when the main executable, kernel32.dll
and ntdll.dll are all registered, the three specials first (main, ntdll,
kernel32) followed by the other modules in registration order; otherwise
plain registration order, with the fallback warning (the Bool). -/
def loadOrderModules (main_pe_name : String) (info : LoadedModules) :
    List Nat × Bool :=
  match info.name2module main_pe_name, info.name2module "kernel32.dll",
      info.name2module "ntdll.dll" with
  | some main_pe, some kernel32_pe, some ntdll_pe =>
      (main_pe :: ntdll_pe :: kernel32_pe ::
        info.modules.filter
          (fun m => !(m == main_pe || m == kernel32_pe || m == ntdll_pe)),
       false)
  | _, _, _ => (info.modules, true)

/-- The `loaded_modules` sequence of
`fix_InInitializationOrderModuleList`: ntdll then kernel32 then the
others — the main executable is filtered out and never re-inserted.
Same fallback as the other fixups. -/
def initOrderModules (main_pe_name : String) (info : LoadedModules) :
    List Nat × Bool :=
  match info.name2module main_pe_name, info.name2module "kernel32.dll",
      info.name2module "ntdll.dll" with
  | some main_pe, some kernel32_pe, some ntdll_pe =>
      (ntdll_pe :: kernel32_pe ::
        info.modules.filter
          (fun m => !(m == main_pe || m == kernel32_pe || m == ntdll_pe)),
       false)
  | _, _, _ => (info.modules, true)

def fix_InLoadOrderModuleList (main_pe_name : String)
    (info : LoadedModules) (mem : Mem) : Mem :=
  set_link_list_entry (loadOrderModules main_pe_name info).1
    info.module2entry 0x0 mem

def fix_InMemoryOrderModuleList (main_pe_name : String)
    (info : LoadedModules) (mem : Mem) : Mem :=
  set_link_list_entry (loadOrderModules main_pe_name info).1
    info.module2entry 0x8 mem

def fix_InInitializationOrderModuleList (main_pe_name : String)
    (info : LoadedModules) (mem : Mem) : Mem :=
  set_link_list_entry (initOrderModules main_pe_name info).1
    info.module2entry 0x10 mem

/-- `build_ldr_data(jitter, modules_info)`: write the three list-head
fields of the loader-data block and the dummy dll base.  The head flinks
point at the first member's link field (load and memory order only when
the main module is registered, initialization order only when ntdll is);
every written head blink is 0 (the source's `XXX TODO fix blink`).  The
descriptor link-field offsets InLoadOrderLinks +0x0, InMemoryOrderLinks
+0x8 and InInitializationOrderLinks +0x10 are the `LdrDataEntry` layout
(outside `src/`, modelled from the spec), identical to the offsets the
fixups pass to `set_link_list_entry`; the head offsets +0xC/+0x14/+0x1C
are the PEB_LDR_DATA layout given in the source's own docstring.  The
conditional allocation of the head bytes is not tracked. -/
def build_ldr_data (main_pe_name : String) (info : LoadedModules)
    (mem : Mem) : Mem :=
  let mem1 :=
    match info.name2module main_pe_name with
    | some m =>
        writeU32 (writeU32 (writeU32 (writeU32 mem
          (peb_ldr_data_address + 0xC) (info.module2entry m))
          (peb_ldr_data_address + 0x10) 0)
          (peb_ldr_data_address + 0x14) (info.module2entry m + 0x8))
          (peb_ldr_data_address + 0x18) 0
    | none => mem
  let mem2 :=
    match info.name2module "ntdll.dll" with
    | some m =>
        writeU32 (writeU32 mem1
          (peb_ldr_data_address + 0x1C) (info.module2entry m + 0x10))
          (peb_ldr_data_address + 0x20) 0
    | none => mem1
  writeU32 mem2 (peb_ldr_data_address + 0x24) 0

/-- The loader-list portion of `init_seh`: the three fixups in source
order followed by `build_ldr_data`. -/
def init_seh_lists (main_pe_name : String) (info : LoadedModules)
    (mem : Mem) : Mem :=
  build_ldr_data main_pe_name info
    (fix_InInitializationOrderModuleList main_pe_name info
      (fix_InMemoryOrderModuleList main_pe_name info
        (fix_InLoadOrderModuleList main_pe_name info mem)))

/-- Forward traversal of a loader list: follow flink words from `cur`,
collecting the visited link-field addresses, until the list head address
is reached (`some visited`); `none` when the fuel runs out before the
traversal returns to the head. -/
def walkF (mem : Mem) (headAddr : Nat) : Nat → Nat → Option (List Nat)
  | 0, _ => none
  | fuel + 1, cur =>
      if cur = headAddr then some []
      else
        match walkF mem headAddr fuel (readU32 mem cur) with
        | some l => some (cur :: l)
        | none => none

/-- Backward traversal of a loader list: follow blink words (each at
link-field address + 4), collecting the visited link-field addresses,
until the head is reached. -/
def walkB (mem : Mem) (headAddr : Nat) : Nat → Nat → Option (List Nat)
  | 0, _ => none
  | fuel + 1, cur =>
      if cur = headAddr then some []
      else
        match walkB mem headAddr fuel (readU32 mem (cur + 4)) with
        | some l => some (cur :: l)
        | none => none

/-- The registry of C5's scenario: main executable "app.exe" (module 1)
plus "ntdll.dll" (2), "kernel32.dll" (3) and "foo.dll" (4), registered
in that order, with the descriptor addresses `create_modules_chain`
assigns (table base + slot × 0x1000, slots numbered from 1). -/
def infoC : LoadedModules where
  modules := [1, 2, 3, 4]
  name2module := fun s =>
    if s = "app.exe" then some 1
    else if s = "ntdll.dll" then some 2
    else if s = "kernel32.dll" then some 3
    else if s = "foo.dll" then some 4
    else none
  module2entry := fun m => LDR_AD + modules_list_offset + m * 0x1000

/-- The memory produced by the loader-list construction for C5's
scenario, starting from all-zero memory. -/
def memC : Mem := init_seh_lists "app.exe" infoC memW

/-- C5: with registered set {app.exe (main), ntdll.dll, kernel32.dll,
foo.dll}, the load-order and memory-order sequences are [app.exe,
ntdll.dll, kernel32.dll, foo.dll] and the initialization-order sequence
is [ntdll.dll, kernel32.dll, foo.dll] (the main executable is absent);
forward-walking the three built lists from their heads visits exactly
those members' link fields in that order (descriptors at 0x342f00,
0x343f00, 0x344f00, 0x345f00). -/
theorem claim_c5_standard_module_order :
    (loadOrderModules "app.exe" infoC).1 = [1, 2, 3, 4] ∧
    (initOrderModules "app.exe" infoC).1 = [2, 3, 4] ∧
    walkF memC (peb_ldr_data_address + 0xC) 5
        (readU32 memC (peb_ldr_data_address + 0xC)) =
      some [0x342f00, 0x343f00, 0x344f00, 0x345f00] ∧
    walkF memC (peb_ldr_data_address + 0x14) 5
        (readU32 memC (peb_ldr_data_address + 0x14)) =
      some [0x342f08, 0x343f08, 0x344f08, 0x345f08] ∧
    walkF memC (peb_ldr_data_address + 0x1C) 4
        (readU32 memC (peb_ldr_data_address + 0x1C)) =
      some [0x343f10, 0x344f10, 0x345f10] := by
  refine ⟨by decide, by decide, by decide, by decide, by decide⟩

/-- C6: when any of the three named modules is absent from the registry,
all three fixups fall back to linking every registered module in plain
registration order, set the warning flag, and complete (they reduce to
plain `set_link_list_entry` calls on the registration-order list). -/
theorem claim_c6_missing_special_fallback (main_pe_name : String)
    (info : LoadedModules) (mem : Mem)
    (h : info.name2module main_pe_name = none ∨
      info.name2module "kernel32.dll" = none ∨
      info.name2module "ntdll.dll" = none) :
    loadOrderModules main_pe_name info = (info.modules, true) ∧
    initOrderModules main_pe_name info = (info.modules, true) ∧
    fix_InLoadOrderModuleList main_pe_name info mem =
      set_link_list_entry info.modules info.module2entry 0x0 mem ∧
    fix_InMemoryOrderModuleList main_pe_name info mem =
      set_link_list_entry info.modules info.module2entry 0x8 mem ∧
    fix_InInitializationOrderModuleList main_pe_name info mem =
      set_link_list_entry info.modules info.module2entry 0x10 mem := by
  rcases hA : info.name2module main_pe_name with _ | a <;>
    rcases hB : info.name2module "kernel32.dll" with _ | b <;>
      rcases hC : info.name2module "ntdll.dll" with _ | c <;>
        simp_all [loadOrderModules, initOrderModules,
          fix_InLoadOrderModuleList, fix_InMemoryOrderModuleList,
          fix_InInitializationOrderModuleList]

/-- The registry of C6's witness: kernel32.dll is not registered. -/
def infoC6 : LoadedModules where
  modules := [1, 2]
  name2module := fun s =>
    if s = "app.exe" then some 1
    else if s = "ntdll.dll" then some 2
    else none
  module2entry := fun m => LDR_AD + modules_list_offset + m * 0x1000

/-- Witness for C6 with kernel32.dll missing. -/
theorem claim_c6_witness :
    (infoC6.name2module "app.exe" = none ∨
      infoC6.name2module "kernel32.dll" = none ∨
      infoC6.name2module "ntdll.dll" = none) ∧
    (loadOrderModules "app.exe" infoC6 = (infoC6.modules, true) ∧
    initOrderModules "app.exe" infoC6 = (infoC6.modules, true) ∧
    fix_InLoadOrderModuleList "app.exe" infoC6 memW =
      set_link_list_entry infoC6.modules infoC6.module2entry 0x0 memW ∧
    fix_InMemoryOrderModuleList "app.exe" infoC6 memW =
      set_link_list_entry infoC6.modules infoC6.module2entry 0x8 memW ∧
    fix_InInitializationOrderModuleList "app.exe" infoC6 memW =
      set_link_list_entry infoC6.modules infoC6.module2entry 0x10 memW) :=
  ⟨Or.inr (Or.inl (by decide)),
   claim_c6_missing_special_fallback "app.exe" infoC6 memW
     (Or.inr (Or.inl (by decide)))⟩


/-! ## Linked-list lemmas for the loader lists -/

theorem getD_mem (l : List Nat) (i : Nat) (h : i < l.length) :
    l.getD i 0 ∈ l := by
  induction l generalizing i with
  | nil => simp at h
  | cons a t ih =>
      cases i with
      | zero => simp
      | succ j =>
          simp only [List.getD_cons_succ]
          exact List.mem_cons_of_mem a (ih j (by simpa using h))

theorem pairwise_vals {R : Nat → Nat → Prop} (hsym : ∀ a b, R a b → R b a) :
    ∀ (l : List Nat), l.Pairwise R →
      ∀ x ∈ l, ∀ y ∈ l, x ≠ y → R x y := by
  intro l
  induction l with
  | nil => intro _ x hx; simp at hx
  | cons a t ih =>
      intro hpw x hx y hy hxy
      have hfst := (List.pairwise_cons.mp hpw).1
      have hrest := (List.pairwise_cons.mp hpw).2
      rcases List.mem_cons.mp hx with hxa | hxt
      · subst hxa
        rcases List.mem_cons.mp hy with hya | hyt
        · exact absurd hya.symm hxy
        · exact hfst y hyt
      · rcases List.mem_cons.mp hy with hya | hyt
        · subst hya
          exact hsym _ _ (hfst x hxt)
        · exact ih hrest x hxt y hyt hxy

theorem pairwise_idx_lt {R : Nat → Nat → Prop} :
    ∀ (l : List Nat), l.Pairwise R → ∀ i k : Nat, i < k → k < l.length →
      R (l.getD i 0) (l.getD k 0) := by
  intro l
  induction l with
  | nil => intro _ i k _ hk; simp at hk
  | cons a t ih =>
      intro hpw i k hik hk
      have hfst := (List.pairwise_cons.mp hpw).1
      have hrest := (List.pairwise_cons.mp hpw).2
      cases i with
      | zero =>
          cases k with
          | zero => exact absurd hik (by omega)
          | succ k2 =>
              simp only [List.getD_cons_zero, List.getD_cons_succ]
              exact hfst _ (getD_mem t k2 (by simpa using hk))
      | succ i2 =>
          cases k with
          | zero => exact absurd hik (by omega)
          | succ k2 =>
              simp only [List.getD_cons_succ]
              exact ih hrest i2 k2 (by omega) (by simpa using hk)

theorem pairwise_idx {R : Nat → Nat → Prop} (hsym : ∀ a b, R a b → R b a)
    (l : List Nat) (hpw : l.Pairwise R) (i k : Nat)
    (hi : i < l.length) (hk : k < l.length) (hik : i ≠ k) :
    R (l.getD i 0) (l.getD k 0) := by
  rcases Nat.lt_or_ge i k with h | h
  · exact pairwise_idx_lt l hpw i k h hk
  · exact hsym _ _ (pairwise_idx_lt l hpw k i (by omega) hi)

theorem foldl_link_read_out (loaded : List Nat) (m2e : Nat → Nat)
    (offset : Nat) (l : List Nat) (mem : Mem) (b : Nat)
    (h : ∀ i ∈ l, b ≠ m2e (loaded.getD i 0) + offset ∧
      b ≠ m2e (loaded.getD i 0) + offset + 4) :
    readU32 (l.foldl (writeLinkPair loaded m2e offset) mem) b =
      readU32 mem b := by
  induction l generalizing mem with
  | nil => rfl
  | cons a l ih =>
      show readU32 (l.foldl (writeLinkPair loaded m2e offset)
        (writeLinkPair loaded m2e offset mem a)) b = readU32 mem b
      rw [ih (writeLinkPair loaded m2e offset mem a)
        (fun i hi => h i (List.mem_cons_of_mem a hi))]
      have ha := h a (List.mem_cons_self a l)
      unfold writeLinkPair
      apply peel_ne
      · exact peel_ne _ _ _ _ _ rfl ha.1
      · exact ha.2

theorem foldl_link_read_flink (loaded : List Nat) (m2e : Nat → Nat)
    (offset : Nat) (l : List Nat) (mem : Mem) (j : Nat)
    (hj : j ∈ l)
    (hother : ∀ i ∈ l, i ≠ j →
      m2e (loaded.getD j 0) + offset ≠ m2e (loaded.getD i 0) + offset ∧
      m2e (loaded.getD j 0) + offset ≠ m2e (loaded.getD i 0) + offset + 4) :
    readU32 (l.foldl (writeLinkPair loaded m2e offset) mem)
      (m2e (loaded.getD j 0) + offset) =
      (nextEntry loaded m2e j + offset) % 4294967296 := by
  induction l generalizing mem with
  | nil => cases hj
  | cons a l ih =>
      show readU32 (l.foldl (writeLinkPair loaded m2e offset)
          (writeLinkPair loaded m2e offset mem a))
        (m2e (loaded.getD j 0) + offset) = _
      by_cases hjl : j ∈ l
      · exact ih (writeLinkPair loaded m2e offset mem a) hjl
          (fun i hi => hother i (List.mem_cons_of_mem a hi))
      · have haj : a = j := by
          rcases List.mem_cons.mp hj with h1 | h1
          · exact h1.symm
          · exact absurd h1 hjl
        subst haj
        rw [foldl_link_read_out loaded m2e offset l _ _ (fun i hi =>
          hother i (List.mem_cons_of_mem a hi)
            (fun he => hjl (he ▸ hi)))]
        unfold writeLinkPair
        apply peel_ne
        · exact peel_eq _ _ _ _ rfl
        · omega

theorem foldl_link_read_blink (loaded : List Nat) (m2e : Nat → Nat)
    (offset : Nat) (l : List Nat) (mem : Mem) (j : Nat)
    (hj : j ∈ l)
    (hother : ∀ i ∈ l, i ≠ j →
      m2e (loaded.getD j 0) + offset + 4 ≠ m2e (loaded.getD i 0) + offset ∧
      m2e (loaded.getD j 0) + offset + 4 ≠
        m2e (loaded.getD i 0) + offset + 4) :
    readU32 (l.foldl (writeLinkPair loaded m2e offset) mem)
      (m2e (loaded.getD j 0) + offset + 4) =
      (prevEntry loaded m2e j + offset) % 4294967296 := by
  induction l generalizing mem with
  | nil => cases hj
  | cons a l ih =>
      show readU32 (l.foldl (writeLinkPair loaded m2e offset)
          (writeLinkPair loaded m2e offset mem a))
        (m2e (loaded.getD j 0) + offset + 4) = _
      by_cases hjl : j ∈ l
      · exact ih (writeLinkPair loaded m2e offset mem a) hjl
          (fun i hi => hother i (List.mem_cons_of_mem a hi))
      · have haj : a = j := by
          rcases List.mem_cons.mp hj with h1 | h1
          · exact h1.symm
          · exact absurd h1 hjl
        subst haj
        rw [foldl_link_read_out loaded m2e offset l _ _ (fun i hi =>
          hother i (List.mem_cons_of_mem a hi)
            (fun he => hjl (he ▸ hi)))]
        unfold writeLinkPair
        exact peel_eq _ _ _ _ rfl

/-- A read at an address no link word of this fixup is written to. -/
theorem set_link_read_out (loaded : List Nat) (m2e : Nat → Nat)
    (offset : Nat) (mem : Mem) (b : Nat)
    (h : ∀ x ∈ loaded, b ≠ m2e x + offset ∧ b ≠ m2e x + offset + 4) :
    readU32 (set_link_list_entry loaded m2e offset mem) b = readU32 mem b :=
  foldl_link_read_out loaded m2e offset _ mem b (fun i hi =>
    h _ (getD_mem loaded i (List.mem_range.mp hi)))

/-- The flink word of member `j` after the fixup, given that the
descriptor addresses are pairwise at least 0x18 bytes apart. -/
theorem set_link_read_flink (loaded : List Nat) (m2e : Nat → Nat)
    (offset : Nat) (mem : Mem) (j : Nat) (hj : j < loaded.length)
    (hap : ∀ i k : Nat, i < loaded.length → k < loaded.length → i ≠ k →
      m2e (loaded.getD i 0) + 0x18 ≤ m2e (loaded.getD k 0) ∨
      m2e (loaded.getD k 0) + 0x18 ≤ m2e (loaded.getD i 0))
    (hoff : offset ≤ 0x10) :
    readU32 (set_link_list_entry loaded m2e offset mem)
      (m2e (loaded.getD j 0) + offset) =
      (nextEntry loaded m2e j + offset) % 4294967296 :=
  foldl_link_read_flink loaded m2e offset _ mem j (List.mem_range.mpr hj)
    (fun i hi hij => by
      have := hap i j (List.mem_range.mp hi) hj hij
      constructor <;> omega)

/-- The blink word of member `j` after the fixup. -/
theorem set_link_read_blink (loaded : List Nat) (m2e : Nat → Nat)
    (offset : Nat) (mem : Mem) (j : Nat) (hj : j < loaded.length)
    (hap : ∀ i k : Nat, i < loaded.length → k < loaded.length → i ≠ k →
      m2e (loaded.getD i 0) + 0x18 ≤ m2e (loaded.getD k 0) ∨
      m2e (loaded.getD k 0) + 0x18 ≤ m2e (loaded.getD i 0))
    (hoff : offset ≤ 0x10) :
    readU32 (set_link_list_entry loaded m2e offset mem)
      (m2e (loaded.getD j 0) + offset + 4) =
      (prevEntry loaded m2e j + offset) % 4294967296 :=
  foldl_link_read_blink loaded m2e offset _ mem j (List.mem_range.mpr hj)
    (fun i hi hij => by
      have := hap i j (List.mem_range.mp hi) hj hij
      constructor <;> omega)

/-- The forward-link words of the list `ls` of link-field addresses form
a chain in `mem` ending at the head address `H`. -/
def flinksOk (mem : Mem) (H : Nat) : List Nat → Prop
  | [] => True
  | [a] => readU32 mem a = H
  | a :: b :: l => readU32 mem a = b ∧ flinksOk mem H (b :: l)

/-- The backward-link words (each at link address + 4) point at the
predecessor's link address, the first at `prev` (the head address). -/
def blinksOk (mem : Mem) : Nat → List Nat → Prop
  | _, [] => True
  | prev, a :: l => readU32 mem (a + 4) = prev ∧ blinksOk mem a l

theorem flinksOk_congr (m1 m2 : Mem) (H : Nat) :
    ∀ ls : List Nat, (∀ a ∈ ls, readU32 m2 a = readU32 m1 a) →
      flinksOk m1 H ls → flinksOk m2 H ls := by
  intro ls
  induction ls with
  | nil => intro _ _; trivial
  | cons a l ih =>
      intro hsame h
      cases l with
      | nil =>
          show readU32 m2 a = H
          rw [hsame a (List.mem_cons_self a _)]
          exact h
      | cons b l2 =>
          exact ⟨by rw [hsame a (List.mem_cons_self a _)]; exact h.1,
            ih (fun x hx => hsame x (List.mem_cons_of_mem a hx)) h.2⟩

theorem blinksOk_congr (m1 m2 : Mem) :
    ∀ (ls : List Nat) (prev : Nat),
      (∀ a ∈ ls, readU32 m2 (a + 4) = readU32 m1 (a + 4)) →
      blinksOk m1 prev ls → blinksOk m2 prev ls := by
  intro ls
  induction ls with
  | nil => intro _ _ _; trivial
  | cons a l ih =>
      intro prev hsame h
      exact ⟨by rw [hsame a (List.mem_cons_self a _)]; exact h.1,
        ih a (fun x hx => hsame x (List.mem_cons_of_mem a hx)) h.2⟩

theorem flinksOk_of_reads (mem : Mem) (H : Nat) (g : Nat → Nat) :
    ∀ loaded : List Nat,
      (∀ j, j < loaded.length → readU32 mem (g (loaded.getD j 0)) =
        if j = loaded.length - 1 then H else g (loaded.getD (j + 1) 0)) →
      flinksOk mem H (loaded.map g) := by
  intro loaded
  induction loaded with
  | nil => intro _; trivial
  | cons a t ih =>
      intro hreads
      cases t with
      | nil =>
          show readU32 mem (g a) = H
          have := hreads 0 (by simp)
          simpa using this
      | cons b t2 =>
          refine ⟨?_, ih ?_⟩
          · have := hreads 0 (by simp)
            simpa using this
          · intro j hj
            have := hreads (j + 1) (by simpa using hj)
            simp only [List.getD_cons_succ] at this
            rw [this]
            simp only [List.length_cons]
            split_ifs <;> first | rfl | omega

theorem blinksOk_of_reads (mem : Mem) (g : Nat → Nat) :
    ∀ (loaded : List Nat) (prev : Nat),
      (∀ j, j < loaded.length → readU32 mem (g (loaded.getD j 0) + 4) =
        if j = 0 then prev else g (loaded.getD (j - 1) 0)) →
      blinksOk mem prev (loaded.map g) := by
  intro loaded
  induction loaded with
  | nil => intro _ _; trivial
  | cons a t ih =>
      intro prev hreads
      refine ⟨?_, ih (g a) ?_⟩
      · have := hreads 0 (by simp)
        simpa using this
      · intro j hj
        have := hreads (j + 1) (by simpa using hj)
        simp only [List.getD_cons_succ] at this
        rw [this]
        cases j with
        | zero => simp
        | succ j2 => simp

theorem walkF_of_flinksOk (mem : Mem) (H : Nat) :
    ∀ ls : List Nat, flinksOk mem H ls → (∀ a ∈ ls, a ≠ H) →
      walkF mem H (ls.length + 1) (ls.headD H) = some ls := by
  intro ls
  induction ls with
  | nil =>
      intro _ _
      show walkF mem H 1 H = some []
      simp [walkF]
  | cons a l ih =>
      intro hchain hne
      show walkF mem H (l.length + 1 + 1) a = some (a :: l)
      rw [walkF]
      rw [if_neg (hne a (List.mem_cons_self a l))]
      cases l with
      | nil =>
          have hr : readU32 mem a = H := hchain
          rw [hr]
          simp [walkF]
      | cons b l2 =>
          have hr : readU32 mem a = b := hchain.1
          rw [hr]
          have hrec := ih hchain.2 (fun x hx => hne x (List.mem_cons_of_mem a hx))
          have hhead : (b :: l2).headD H = b := rfl
          rw [hhead] at hrec
          rw [hrec]


/-- Everything the loader-list construction guarantees for a registry
with the three special modules present, stated over explicit member
sequences: the three forward chains, the three member-level backward
chains, and the zeroed head back links. -/
theorem loader_lists_spec (mainName : String) (info : LoadedModules)
    (mem : Mem) (orderL orderI : List Nat) (main_pe ntdll_pe : Nat)
    (hL : (loadOrderModules mainName info).1 = orderL)
    (hI : (initOrderModules mainName info).1 = orderI)
    (hmain : info.name2module mainName = some main_pe)
    (hntdll : info.name2module "ntdll.dll" = some ntdll_pe)
    (hLhead : orderL.getD 0 0 = main_pe)
    (hIhead : orderI.getD 0 0 = ntdll_pe)
    (hLne : orderL ≠ [])
    (hIne : orderI ≠ [])
    (htail : orderI = orderL.tail)
    (hlow : ∀ m ∈ orderL, peb_ldr_data_address + 0x28 ≤ info.module2entry m)
    (hhigh : ∀ m ∈ orderL, info.module2entry m + 0x18 ≤ 4294967296)
    (hap : (orderL.map info.module2entry).Pairwise
      (fun a b => a + 0x18 ≤ b ∨ b + 0x18 ≤ a)) :
    walkF (init_seh_lists mainName info mem) (peb_ldr_data_address + 0xC)
        (orderL.length + 1)
        (readU32 (init_seh_lists mainName info mem) (peb_ldr_data_address + 0xC)) =
      some (orderL.map (fun m => info.module2entry m + 0x0)) ∧
    walkF (init_seh_lists mainName info mem) (peb_ldr_data_address + 0x14)
        (orderL.length + 1)
        (readU32 (init_seh_lists mainName info mem) (peb_ldr_data_address + 0x14)) =
      some (orderL.map (fun m => info.module2entry m + 0x8)) ∧
    walkF (init_seh_lists mainName info mem) (peb_ldr_data_address + 0x1C)
        (orderI.length + 1)
        (readU32 (init_seh_lists mainName info mem) (peb_ldr_data_address + 0x1C)) =
      some (orderI.map (fun m => info.module2entry m + 0x10)) ∧
    blinksOk (init_seh_lists mainName info mem) (peb_ldr_data_address + 0xC)
      (orderL.map (fun m => info.module2entry m + 0x0)) ∧
    blinksOk (init_seh_lists mainName info mem) (peb_ldr_data_address + 0x14)
      (orderL.map (fun m => info.module2entry m + 0x8)) ∧
    blinksOk (init_seh_lists mainName info mem) (peb_ldr_data_address + 0x1C)
      (orderI.map (fun m => info.module2entry m + 0x10)) ∧
    readU32 (init_seh_lists mainName info mem) (peb_ldr_data_address + 0x10) = 0 ∧
    readU32 (init_seh_lists mainName info mem) (peb_ldr_data_address + 0x18) = 0 ∧
    readU32 (init_seh_lists mainName info mem) (peb_ldr_data_address + 0x20) = 0 := by
  have hldr : peb_ldr_data_address = 0x341ea0 := rfl
  have hsym : ∀ a b : Nat,
      (a + 0x18 ≤ b ∨ b + 0x18 ≤ a) → (b + 0x18 ≤ a ∨ a + 0x18 ≤ b) :=
    fun a b h => h.symm
  have hvals := pairwise_vals hsym _ hap
  have hGetMap : ∀ (l : List Nat) (i : Nat), i < l.length →
      (l.map info.module2entry).getD i 0 = info.module2entry (l.getD i 0) := by
    intro l i hi
    rw [List.getD_eq_getElem l 0 hi,
      List.getD_eq_getElem (l.map info.module2entry) 0 (by simpa using hi),
      List.getElem_map]
  have hapIdxL : ∀ i k : Nat, i < orderL.length → k < orderL.length → i ≠ k →
      info.module2entry (orderL.getD i 0) + 0x18 ≤
        info.module2entry (orderL.getD k 0) ∨
      info.module2entry (orderL.getD k 0) + 0x18 ≤
        info.module2entry (orderL.getD i 0) := by
    intro i k hi hk hik
    have := pairwise_idx hsym _ hap i k (by simpa using hi) (by simpa using hk) hik
    rwa [hGetMap orderL i hi, hGetMap orderL k hk] at this
  have hmemI : ∀ m ∈ orderI, m ∈ orderL := by
    intro m hm
    rw [htail] at hm
    exact List.mem_of_mem_tail hm
  have hapI : (orderI.map info.module2entry).Pairwise
      (fun a b => a + 0x18 ≤ b ∨ b + 0x18 ≤ a) := by
    have hsubl : List.Sublist (orderI.map info.module2entry)
        (orderL.map info.module2entry) := by
      rw [htail]
      exact (List.tail_sublist orderL).map info.module2entry
    exact hap.sublist hsubl
  have hapIdxI : ∀ i k : Nat, i < orderI.length → k < orderI.length → i ≠ k →
      info.module2entry (orderI.getD i 0) + 0x18 ≤
        info.module2entry (orderI.getD k 0) ∨
      info.module2entry (orderI.getD k 0) + 0x18 ≤
        info.module2entry (orderI.getD i 0) := by
    intro i k hi hk hik
    have := pairwise_idx hsym _ hapI i k (by simpa using hi) (by simpa using hk) hik
    rwa [hGetMap orderI i hi, hGetMap orderI k hk] at this
  have hmainL : main_pe ∈ orderL := by
    rw [← hLhead]
    exact getD_mem orderL 0 (List.length_pos.mpr hLne)
  have hntdllL : ntdll_pe ∈ orderL := by
    refine hmemI ntdll_pe ?_
    rw [← hIhead]
    exact getD_mem orderI 0 (List.length_pos.mpr hIne)
  have hM : init_seh_lists mainName info mem =
      build_ldr_data mainName info (set_link_list_entry orderI info.module2entry 0x10
        (set_link_list_entry orderL info.module2entry 0x8
          (set_link_list_entry orderL info.module2entry 0x0 mem))) := by
    unfold init_seh_lists fix_InInitializationOrderModuleList
      fix_InMemoryOrderModuleList fix_InLoadOrderModuleList
    rw [hL, hI]
  have hbld : ∀ X : Mem, build_ldr_data mainName info X =
      writeU32 (writeU32 (writeU32 (writeU32 (writeU32 (writeU32 (writeU32 X
        (peb_ldr_data_address + 0xC) (info.module2entry main_pe))
        (peb_ldr_data_address + 0x10) 0)
        (peb_ldr_data_address + 0x14) (info.module2entry main_pe + 0x8))
        (peb_ldr_data_address + 0x18) 0)
        (peb_ldr_data_address + 0x1C) (info.module2entry ntdll_pe + 0x10))
        (peb_ldr_data_address + 0x20) 0)
        (peb_ldr_data_address + 0x24) 0 := by
    intro X
    simp [build_ldr_data, hmain, hntdll]
  have hbout : ∀ (X : Mem) (b : Nat), peb_ldr_data_address + 0x28 ≤ b →
      readU32 (build_ldr_data mainName info X) b = readU32 X b := by
    intro X b hb
    rw [hbld X]
    apply peel_ne
    apply peel_ne
    apply peel_ne
    apply peel_ne
    apply peel_ne
    apply peel_ne
    apply peel_ne
    exact rfl
    all_goals omega
  set A := set_link_list_entry orderL info.module2entry 0x0 mem with hA
  set B := set_link_list_entry orderL info.module2entry 0x8 A with hB
  set C := set_link_list_entry orderI info.module2entry 0x10 B with hC
  -- reads of the flink and blink words of each list, at the final memory
  have hreadsL : ∀ j, j < orderL.length →
      readU32 (init_seh_lists mainName info mem)
        (info.module2entry (orderL.getD j 0) + 0x0) =
      if j = orderL.length - 1 then peb_ldr_data_address + 0xC + 0x0
      else info.module2entry (orderL.getD (j + 1) 0) + 0x0 := by
    intro j hj
    have hmemj : orderL.getD j 0 ∈ orderL := getD_mem orderL j hj
    have hlowj := hlow _ hmemj
    have hcondI : ∀ x ∈ orderI,
        info.module2entry (orderL.getD j 0) + 0x0 ≠ info.module2entry x + 0x10 ∧
        info.module2entry (orderL.getD j 0) + 0x0 ≠ info.module2entry x + 0x10 + 4 := by
      intro x hx
      by_cases hxe : info.module2entry x = info.module2entry (orderL.getD j 0)
      · constructor <;> omega
      · have := hvals _ (List.mem_map_of_mem info.module2entry (hmemI x hx))
          _ (List.mem_map_of_mem info.module2entry hmemj) hxe
        constructor <;> omega
    have hcondM : ∀ x ∈ orderL,
        info.module2entry (orderL.getD j 0) + 0x0 ≠ info.module2entry x + 0x8 ∧
        info.module2entry (orderL.getD j 0) + 0x0 ≠ info.module2entry x + 0x8 + 4 := by
      intro x hx
      by_cases hxe : info.module2entry x = info.module2entry (orderL.getD j 0)
      · constructor <;> omega
      · have := hvals _ (List.mem_map_of_mem info.module2entry hx)
          _ (List.mem_map_of_mem info.module2entry hmemj) hxe
        constructor <;> omega
    rw [hM, hbout C _ (by omega),
      set_link_read_out orderI info.module2entry 0x10 B _ hcondI,
      set_link_read_out orderL info.module2entry 0x8 A _ hcondM,
      set_link_read_flink orderL info.module2entry 0x0 mem j hj hapIdxL
        (by omega)]
    unfold nextEntry
    by_cases hlast : j = orderL.length - 1
    · rw [if_pos hlast, if_pos hlast]
      omega
    · rw [if_neg hlast, if_neg hlast]
      have hmod : (j + 1) % orderL.length = j + 1 :=
        Nat.mod_eq_of_lt (by omega)
      rw [hmod]
      have := hhigh _ (getD_mem orderL (j + 1) (by omega))
      omega
  have hreadsM : ∀ j, j < orderL.length →
      readU32 (init_seh_lists mainName info mem)
        (info.module2entry (orderL.getD j 0) + 0x8) =
      if j = orderL.length - 1 then peb_ldr_data_address + 0xC + 0x8
      else info.module2entry (orderL.getD (j + 1) 0) + 0x8 := by
    intro j hj
    have hmemj : orderL.getD j 0 ∈ orderL := getD_mem orderL j hj
    have hlowj := hlow _ hmemj
    have hcondI : ∀ x ∈ orderI,
        info.module2entry (orderL.getD j 0) + 0x8 ≠ info.module2entry x + 0x10 ∧
        info.module2entry (orderL.getD j 0) + 0x8 ≠ info.module2entry x + 0x10 + 4 := by
      intro x hx
      by_cases hxe : info.module2entry x = info.module2entry (orderL.getD j 0)
      · constructor <;> omega
      · have := hvals _ (List.mem_map_of_mem info.module2entry (hmemI x hx))
          _ (List.mem_map_of_mem info.module2entry hmemj) hxe
        constructor <;> omega
    rw [hM, hbout C _ (by omega),
      set_link_read_out orderI info.module2entry 0x10 B _ hcondI,
      set_link_read_flink orderL info.module2entry 0x8 A j hj hapIdxL
        (by omega)]
    unfold nextEntry
    by_cases hlast : j = orderL.length - 1
    · rw [if_pos hlast, if_pos hlast]
      omega
    · rw [if_neg hlast, if_neg hlast]
      have hmod : (j + 1) % orderL.length = j + 1 :=
        Nat.mod_eq_of_lt (by omega)
      rw [hmod]
      have := hhigh _ (getD_mem orderL (j + 1) (by omega))
      omega
  have hreadsI : ∀ j, j < orderI.length →
      readU32 (init_seh_lists mainName info mem)
        (info.module2entry (orderI.getD j 0) + 0x10) =
      if j = orderI.length - 1 then peb_ldr_data_address + 0xC + 0x10
      else info.module2entry (orderI.getD (j + 1) 0) + 0x10 := by
    intro j hj
    have hmemj : orderI.getD j 0 ∈ orderI := getD_mem orderI j hj
    have hlowj := hlow _ (hmemI _ hmemj)
    rw [hM, hbout C _ (by omega),
      set_link_read_flink orderI info.module2entry 0x10 B j hj hapIdxI
        (by omega)]
    unfold nextEntry
    by_cases hlast : j = orderI.length - 1
    · rw [if_pos hlast, if_pos hlast]
      omega
    · rw [if_neg hlast, if_neg hlast]
      have hmod : (j + 1) % orderI.length = j + 1 :=
        Nat.mod_eq_of_lt (by omega)
      rw [hmod]
      have := hhigh _ (hmemI _ (getD_mem orderI (j + 1) (by omega)))
      omega
  have hreadsBL : ∀ j, j < orderL.length →
      readU32 (init_seh_lists mainName info mem)
        (info.module2entry (orderL.getD j 0) + 0x0 + 4) =
      if j = 0 then peb_ldr_data_address + 0xC + 0x0
      else info.module2entry (orderL.getD (j - 1) 0) + 0x0 := by
    intro j hj
    have hmemj : orderL.getD j 0 ∈ orderL := getD_mem orderL j hj
    have hlowj := hlow _ hmemj
    have hcondI : ∀ x ∈ orderI,
        info.module2entry (orderL.getD j 0) + 0x0 + 4 ≠ info.module2entry x + 0x10 ∧
        info.module2entry (orderL.getD j 0) + 0x0 + 4 ≠ info.module2entry x + 0x10 + 4 := by
      intro x hx
      by_cases hxe : info.module2entry x = info.module2entry (orderL.getD j 0)
      · constructor <;> omega
      · have := hvals _ (List.mem_map_of_mem info.module2entry (hmemI x hx))
          _ (List.mem_map_of_mem info.module2entry hmemj) hxe
        constructor <;> omega
    have hcondM : ∀ x ∈ orderL,
        info.module2entry (orderL.getD j 0) + 0x0 + 4 ≠ info.module2entry x + 0x8 ∧
        info.module2entry (orderL.getD j 0) + 0x0 + 4 ≠ info.module2entry x + 0x8 + 4 := by
      intro x hx
      by_cases hxe : info.module2entry x = info.module2entry (orderL.getD j 0)
      · constructor <;> omega
      · have := hvals _ (List.mem_map_of_mem info.module2entry hx)
          _ (List.mem_map_of_mem info.module2entry hmemj) hxe
        constructor <;> omega
    rw [hM, hbout C _ (by omega),
      set_link_read_out orderI info.module2entry 0x10 B _ hcondI,
      set_link_read_out orderL info.module2entry 0x8 A _ hcondM,
      set_link_read_blink orderL info.module2entry 0x0 mem j hj hapIdxL
        (by omega)]
    unfold prevEntry
    by_cases hfst : j = 0
    · rw [if_pos hfst, if_pos hfst]
      omega
    · rw [if_neg hfst, if_neg hfst]
      have hmod : (j + orderL.length - 1) % orderL.length = j - 1 := by
        have h1 : j + orderL.length - 1 = (j - 1) + orderL.length := by omega
        rw [h1, Nat.add_mod_right]
        exact Nat.mod_eq_of_lt (by omega)
      rw [hmod]
      have := hhigh _ (getD_mem orderL (j - 1) (by omega))
      omega
  have hreadsBM : ∀ j, j < orderL.length →
      readU32 (init_seh_lists mainName info mem)
        (info.module2entry (orderL.getD j 0) + 0x8 + 4) =
      if j = 0 then peb_ldr_data_address + 0xC + 0x8
      else info.module2entry (orderL.getD (j - 1) 0) + 0x8 := by
    intro j hj
    have hmemj : orderL.getD j 0 ∈ orderL := getD_mem orderL j hj
    have hlowj := hlow _ hmemj
    have hcondI : ∀ x ∈ orderI,
        info.module2entry (orderL.getD j 0) + 0x8 + 4 ≠ info.module2entry x + 0x10 ∧
        info.module2entry (orderL.getD j 0) + 0x8 + 4 ≠ info.module2entry x + 0x10 + 4 := by
      intro x hx
      by_cases hxe : info.module2entry x = info.module2entry (orderL.getD j 0)
      · constructor <;> omega
      · have := hvals _ (List.mem_map_of_mem info.module2entry (hmemI x hx))
          _ (List.mem_map_of_mem info.module2entry hmemj) hxe
        constructor <;> omega
    rw [hM, hbout C _ (by omega),
      set_link_read_out orderI info.module2entry 0x10 B _ hcondI,
      set_link_read_blink orderL info.module2entry 0x8 A j hj hapIdxL
        (by omega)]
    unfold prevEntry
    by_cases hfst : j = 0
    · rw [if_pos hfst, if_pos hfst]
      omega
    · rw [if_neg hfst, if_neg hfst]
      have hmod : (j + orderL.length - 1) % orderL.length = j - 1 := by
        have h1 : j + orderL.length - 1 = (j - 1) + orderL.length := by omega
        rw [h1, Nat.add_mod_right]
        exact Nat.mod_eq_of_lt (by omega)
      rw [hmod]
      have := hhigh _ (getD_mem orderL (j - 1) (by omega))
      omega
  have hreadsBI : ∀ j, j < orderI.length →
      readU32 (init_seh_lists mainName info mem)
        (info.module2entry (orderI.getD j 0) + 0x10 + 4) =
      if j = 0 then peb_ldr_data_address + 0xC + 0x10
      else info.module2entry (orderI.getD (j - 1) 0) + 0x10 := by
    intro j hj
    have hmemj : orderI.getD j 0 ∈ orderI := getD_mem orderI j hj
    have hlowj := hlow _ (hmemI _ hmemj)
    rw [hM, hbout C _ (by omega),
      set_link_read_blink orderI info.module2entry 0x10 B j hj hapIdxI
        (by omega)]
    unfold prevEntry
    by_cases hfst : j = 0
    · rw [if_pos hfst, if_pos hfst]
      omega
    · rw [if_neg hfst, if_neg hfst]
      have hmod : (j + orderI.length - 1) % orderI.length = j - 1 := by
        have h1 : j + orderI.length - 1 = (j - 1) + orderI.length := by omega
        rw [h1, Nat.add_mod_right]
        exact Nat.mod_eq_of_lt (by omega)
      rw [hmod]
      have := hhigh _ (hmemI _ (getD_mem orderI (j - 1) (by omega)))
      omega
  -- head reads
  have hhead1 : readU32 (init_seh_lists mainName info mem)
      (peb_ldr_data_address + 0xC) = info.module2entry main_pe := by
    have := hhigh _ hmainL
    rw [hM, hbld]
    apply peel_ne
    apply peel_ne
    apply peel_ne
    apply peel_ne
    apply peel_ne
    apply peel_ne
    refine peel_hit _ _ _ _ _ rfl ?_
    all_goals omega
  have hhead2 : readU32 (init_seh_lists mainName info mem)
      (peb_ldr_data_address + 0x14) = info.module2entry main_pe + 0x8 := by
    have := hhigh _ hmainL
    rw [hM, hbld]
    apply peel_ne
    apply peel_ne
    apply peel_ne
    apply peel_ne
    refine peel_hit _ _ _ _ _ rfl ?_
    all_goals omega
  have hhead3 : readU32 (init_seh_lists mainName info mem)
      (peb_ldr_data_address + 0x1C) = info.module2entry ntdll_pe + 0x10 := by
    have := hhigh _ hntdllL
    rw [hM, hbld]
    apply peel_ne
    apply peel_ne
    refine peel_hit _ _ _ _ _ rfl ?_
    all_goals omega
  have hz1 : readU32 (init_seh_lists mainName info mem)
      (peb_ldr_data_address + 0x10) = 0 := by
    rw [hM, hbld]
    apply peel_ne
    apply peel_ne
    apply peel_ne
    apply peel_ne
    apply peel_ne
    refine peel_hit _ _ _ _ _ rfl ?_
    all_goals omega
  have hz2 : readU32 (init_seh_lists mainName info mem)
      (peb_ldr_data_address + 0x18) = 0 := by
    rw [hM, hbld]
    apply peel_ne
    apply peel_ne
    apply peel_ne
    refine peel_hit _ _ _ _ _ rfl ?_
    all_goals omega
  have hz3 : readU32 (init_seh_lists mainName info mem)
      (peb_ldr_data_address + 0x20) = 0 := by
    rw [hM, hbld]
    apply peel_ne
    refine peel_hit _ _ _ _ _ rfl ?_
    all_goals omega
  -- chains
  have hchainL : flinksOk (init_seh_lists mainName info mem)
      (peb_ldr_data_address + 0xC + 0x0)
      (orderL.map (fun m => info.module2entry m + 0x0)) :=
    flinksOk_of_reads _ _ _ orderL hreadsL
  have hchainM : flinksOk (init_seh_lists mainName info mem)
      (peb_ldr_data_address + 0xC + 0x8)
      (orderL.map (fun m => info.module2entry m + 0x8)) :=
    flinksOk_of_reads _ _ _ orderL hreadsM
  have hchainI : flinksOk (init_seh_lists mainName info mem)
      (peb_ldr_data_address + 0xC + 0x10)
      (orderI.map (fun m => info.module2entry m + 0x10)) :=
    flinksOk_of_reads _ _ _ orderI hreadsI
  have hblinkL : blinksOk (init_seh_lists mainName info mem)
      (peb_ldr_data_address + 0xC + 0x0)
      (orderL.map (fun m => info.module2entry m + 0x0)) :=
    blinksOk_of_reads _ _ orderL _ hreadsBL
  have hblinkM : blinksOk (init_seh_lists mainName info mem)
      (peb_ldr_data_address + 0xC + 0x8)
      (orderL.map (fun m => info.module2entry m + 0x8)) :=
    blinksOk_of_reads _ _ orderL _ hreadsBM
  have hblinkI : blinksOk (init_seh_lists mainName info mem)
      (peb_ldr_data_address + 0xC + 0x10)
      (orderI.map (fun m => info.module2entry m + 0x10)) :=
    blinksOk_of_reads _ _ orderI _ hreadsBI
  -- walks
  have hwalk1 : walkF (init_seh_lists mainName info mem)
      (peb_ldr_data_address + 0xC) (orderL.length + 1)
      (readU32 (init_seh_lists mainName info mem) (peb_ldr_data_address + 0xC)) =
      some (orderL.map (fun m => info.module2entry m + 0x0)) := by
    rw [hhead1]
    have hne : ∀ a ∈ orderL.map (fun m => info.module2entry m + 0x0),
        a ≠ peb_ldr_data_address + 0xC + 0x0 := by
      intro a ha
      obtain ⟨m, hm, rfl⟩ := List.mem_map.mp ha
      have := hlow m hm
      omega
    have hwof := walkF_of_flinksOk _ _ _ hchainL hne
    rw [List.length_map] at hwof
    have hhd : (orderL.map (fun m => info.module2entry m + 0x0)).headD
        (peb_ldr_data_address + 0xC + 0x0) = info.module2entry main_pe + 0x0 := by
      cases orderL with
      | nil => exact absurd rfl hLne
      | cons a t =>
          have ha : a = main_pe := by simpa using hLhead
          simp [ha]
    rw [hhd] at hwof
    exact hwof
  have hwalk2 : walkF (init_seh_lists mainName info mem)
      (peb_ldr_data_address + 0x14) (orderL.length + 1)
      (readU32 (init_seh_lists mainName info mem) (peb_ldr_data_address + 0x14)) =
      some (orderL.map (fun m => info.module2entry m + 0x8)) := by
    rw [hhead2]
    have hne : ∀ a ∈ orderL.map (fun m => info.module2entry m + 0x8),
        a ≠ peb_ldr_data_address + 0xC + 0x8 := by
      intro a ha
      obtain ⟨m, hm, rfl⟩ := List.mem_map.mp ha
      have := hlow m hm
      omega
    have hwof := walkF_of_flinksOk _ _ _ hchainM hne
    rw [List.length_map] at hwof
    have hhd : (orderL.map (fun m => info.module2entry m + 0x8)).headD
        (peb_ldr_data_address + 0xC + 0x8) = info.module2entry main_pe + 0x8 := by
      cases orderL with
      | nil => exact absurd rfl hLne
      | cons a t =>
          have ha : a = main_pe := by simpa using hLhead
          simp [ha]
    rw [hhd] at hwof
    exact hwof
  have hwalk3 : walkF (init_seh_lists mainName info mem)
      (peb_ldr_data_address + 0x1C) (orderI.length + 1)
      (readU32 (init_seh_lists mainName info mem) (peb_ldr_data_address + 0x1C)) =
      some (orderI.map (fun m => info.module2entry m + 0x10)) := by
    rw [hhead3]
    have hne : ∀ a ∈ orderI.map (fun m => info.module2entry m + 0x10),
        a ≠ peb_ldr_data_address + 0xC + 0x10 := by
      intro a ha
      obtain ⟨m, hm, rfl⟩ := List.mem_map.mp ha
      have := hlow m (hmemI m hm)
      omega
    have hwof := walkF_of_flinksOk _ _ _ hchainI hne
    rw [List.length_map] at hwof
    have hhd : (orderI.map (fun m => info.module2entry m + 0x10)).headD
        (peb_ldr_data_address + 0xC + 0x10) = info.module2entry ntdll_pe + 0x10 := by
      cases orderI with
      | nil => exact absurd rfl hIne
      | cons a t =>
          have ha : a = ntdll_pe := by simpa using hIhead
          simp [ha]
    rw [hhd] at hwof
    exact hwof
  exact ⟨hwalk1, hwalk2, hwalk3, hblinkL, hblinkM, hblinkI, hz1, hz2, hz3⟩


/-- C2 (amended): for every registered module set in which the main
executable, ntdll.dll and kernel32.dll are all registered (descriptors
above the loader-data head region, pairwise at least 0x18 bytes apart
and below 2^32), each of the three loader lists traversed forward from
its list-head field visits exactly its required members once (the member
sequences are duplicate-free) and returns to the head, and every
member's back link holds its predecessor's link-field address, with the
first member's back link holding the head's link-field address; the
head's own back-link field, however, is written as 0, so the backward
traversal starting from the head's back link does not visit the
members. -/
theorem claim_c2_amended_loader_lists (mainName : String)
    (info : LoadedModules) (mem : Mem) (main_pe ntdll_pe kernel32_pe : Nat)
    (hmain : info.name2module mainName = some main_pe)
    (hk32 : info.name2module "kernel32.dll" = some kernel32_pe)
    (hntdll : info.name2module "ntdll.dll" = some ntdll_pe)
    (hlow : ∀ m ∈ (loadOrderModules mainName info).1,
      peb_ldr_data_address + 0x28 ≤ info.module2entry m)
    (hhigh : ∀ m ∈ (loadOrderModules mainName info).1,
      info.module2entry m + 0x18 ≤ 4294967296)
    (hap : ((loadOrderModules mainName info).1.map info.module2entry).Pairwise
      (fun a b => a + 0x18 ≤ b ∨ b + 0x18 ≤ a)) :
    (loadOrderModules mainName info).1.Nodup ∧
    (initOrderModules mainName info).1.Nodup ∧
    walkF (init_seh_lists mainName info mem) (peb_ldr_data_address + 0xC)
        ((loadOrderModules mainName info).1.length + 1)
        (readU32 (init_seh_lists mainName info mem) (peb_ldr_data_address + 0xC)) =
      some ((loadOrderModules mainName info).1.map
        (fun m => info.module2entry m + 0x0)) ∧
    walkF (init_seh_lists mainName info mem) (peb_ldr_data_address + 0x14)
        ((loadOrderModules mainName info).1.length + 1)
        (readU32 (init_seh_lists mainName info mem) (peb_ldr_data_address + 0x14)) =
      some ((loadOrderModules mainName info).1.map
        (fun m => info.module2entry m + 0x8)) ∧
    walkF (init_seh_lists mainName info mem) (peb_ldr_data_address + 0x1C)
        ((initOrderModules mainName info).1.length + 1)
        (readU32 (init_seh_lists mainName info mem) (peb_ldr_data_address + 0x1C)) =
      some ((initOrderModules mainName info).1.map
        (fun m => info.module2entry m + 0x10)) ∧
    blinksOk (init_seh_lists mainName info mem) (peb_ldr_data_address + 0xC)
      ((loadOrderModules mainName info).1.map
        (fun m => info.module2entry m + 0x0)) ∧
    blinksOk (init_seh_lists mainName info mem) (peb_ldr_data_address + 0x14)
      ((loadOrderModules mainName info).1.map
        (fun m => info.module2entry m + 0x8)) ∧
    blinksOk (init_seh_lists mainName info mem) (peb_ldr_data_address + 0x1C)
      ((initOrderModules mainName info).1.map
        (fun m => info.module2entry m + 0x10)) ∧
    readU32 (init_seh_lists mainName info mem) (peb_ldr_data_address + 0x10) = 0 ∧
    readU32 (init_seh_lists mainName info mem) (peb_ldr_data_address + 0x18) = 0 ∧
    readU32 (init_seh_lists mainName info mem) (peb_ldr_data_address + 0x20) = 0 := by
  have hLc : (loadOrderModules mainName info).1 =
      main_pe :: ntdll_pe :: kernel32_pe :: info.modules.filter
        (fun m => !(m == main_pe || m == kernel32_pe || m == ntdll_pe)) := by
    simp [loadOrderModules, hmain, hk32, hntdll]
  have hIc : (initOrderModules mainName info).1 =
      ntdll_pe :: kernel32_pe :: info.modules.filter
        (fun m => !(m == main_pe || m == kernel32_pe || m == ntdll_pe)) := by
    simp [initOrderModules, hmain, hk32, hntdll]
  have hNodupL : (loadOrderModules mainName info).1.Nodup := by
    have h1 : ((loadOrderModules mainName info).1.map info.module2entry).Nodup := by
      refine hap.imp ?_
      intro a b h
      omega
    exact h1.of_map
  have htail : (initOrderModules mainName info).1 =
      (loadOrderModules mainName info).1.tail := by
    rw [hLc, hIc]
    rfl
  have hNodupI : (initOrderModules mainName info).1.Nodup := by
    have hsub : List.Sublist (initOrderModules mainName info).1
        (loadOrderModules mainName info).1 := by
      rw [htail]
      exact List.tail_sublist _
    exact hNodupL.sublist hsub
  have spec := loader_lists_spec mainName info mem
    (loadOrderModules mainName info).1 (initOrderModules mainName info).1
    main_pe ntdll_pe rfl rfl hmain hntdll
    (by rw [hLc]; rfl) (by rw [hIc]; rfl)
    (by rw [hLc]; simp) (by rw [hIc]; simp)
    htail hlow hhigh hap
  exact ⟨hNodupL, hNodupI, spec.1, spec.2.1, spec.2.2.1, spec.2.2.2.1,
    spec.2.2.2.2.1, spec.2.2.2.2.2.1, spec.2.2.2.2.2.2.1,
    spec.2.2.2.2.2.2.2.1, spec.2.2.2.2.2.2.2.2⟩

/-- C2, as stated, is false on the code: for the standard registered set
of `infoC` (main app.exe, ntdll.dll, kernel32.dll, foo.dll), the built
load-order list head has back link 0 — not the last member's link
address — so the backward traversal starting from the head's back link
does not visit the members in reverse and return to the head. -/
theorem claim_c2_counterexample :
    readU32 memC (peb_ldr_data_address + 0x10) = 0 ∧
    walkB memC (peb_ldr_data_address + 0xC) 5
        (readU32 memC (peb_ldr_data_address + 0x10)) ≠
      some [0x345f00, 0x344f00, 0x343f00, 0x342f00] :=
  ⟨by decide, by decide⟩

/-- Witness for the amended C2 at the standard registered set. -/
theorem claim_c2_amended_witness :
    (infoC.name2module "app.exe" = some 1 ∧
     infoC.name2module "kernel32.dll" = some 3 ∧
     infoC.name2module "ntdll.dll" = some 2 ∧
     (∀ m ∈ (loadOrderModules "app.exe" infoC).1,
       peb_ldr_data_address + 0x28 ≤ infoC.module2entry m) ∧
     (∀ m ∈ (loadOrderModules "app.exe" infoC).1,
       infoC.module2entry m + 0x18 ≤ 4294967296) ∧
     ((loadOrderModules "app.exe" infoC).1.map infoC.module2entry).Pairwise
       (fun a b => a + 0x18 ≤ b ∨ b + 0x18 ≤ a)) ∧
    ((loadOrderModules "app.exe" infoC).1.Nodup ∧
    (initOrderModules "app.exe" infoC).1.Nodup ∧
    walkF (init_seh_lists "app.exe" infoC memW) (peb_ldr_data_address + 0xC)
        ((loadOrderModules "app.exe" infoC).1.length + 1)
        (readU32 (init_seh_lists "app.exe" infoC memW) (peb_ldr_data_address + 0xC)) =
      some ((loadOrderModules "app.exe" infoC).1.map
        (fun m => infoC.module2entry m + 0x0)) ∧
    walkF (init_seh_lists "app.exe" infoC memW) (peb_ldr_data_address + 0x14)
        ((loadOrderModules "app.exe" infoC).1.length + 1)
        (readU32 (init_seh_lists "app.exe" infoC memW) (peb_ldr_data_address + 0x14)) =
      some ((loadOrderModules "app.exe" infoC).1.map
        (fun m => infoC.module2entry m + 0x8)) ∧
    walkF (init_seh_lists "app.exe" infoC memW) (peb_ldr_data_address + 0x1C)
        ((initOrderModules "app.exe" infoC).1.length + 1)
        (readU32 (init_seh_lists "app.exe" infoC memW) (peb_ldr_data_address + 0x1C)) =
      some ((initOrderModules "app.exe" infoC).1.map
        (fun m => infoC.module2entry m + 0x10)) ∧
    blinksOk (init_seh_lists "app.exe" infoC memW) (peb_ldr_data_address + 0xC)
      ((loadOrderModules "app.exe" infoC).1.map
        (fun m => infoC.module2entry m + 0x0)) ∧
    blinksOk (init_seh_lists "app.exe" infoC memW) (peb_ldr_data_address + 0x14)
      ((loadOrderModules "app.exe" infoC).1.map
        (fun m => infoC.module2entry m + 0x8)) ∧
    blinksOk (init_seh_lists "app.exe" infoC memW) (peb_ldr_data_address + 0x1C)
      ((initOrderModules "app.exe" infoC).1.map
        (fun m => infoC.module2entry m + 0x10)) ∧
    readU32 (init_seh_lists "app.exe" infoC memW) (peb_ldr_data_address + 0x10) = 0 ∧
    readU32 (init_seh_lists "app.exe" infoC memW) (peb_ldr_data_address + 0x18) = 0 ∧
    readU32 (init_seh_lists "app.exe" infoC memW) (peb_ldr_data_address + 0x20) = 0) :=
  ⟨⟨by decide, by decide, by decide, by decide, by decide, by decide⟩,
   claim_c2_amended_loader_lists "app.exe" infoC memW 1 2 3
     (by decide) (by decide) (by decide) (by decide) (by decide) (by decide)⟩

end Seh
